import Mathlib

/-! # ntk3900-spi: a shallow embedding of `spi_binding.cc` / `spi_binding.h`

The native class `Spi` drives a display over spidev and two GPIO lines (a write
strobe and a ready/busy input).  Each method of the class is embedded as a
function from the object's fields and the JavaScript argument list to an
`Outcome`: the fields afterwards, how the call completed, and the system calls
and GPIO register accesses it performed, in order.

Machine integers are natural numbers or integers with explicit reduction where
the C++ type truncates.  What the kernel and the peer device answer is an
explicit input (`Kernel`, `Bus`).  The two busy-wait loops on the ready pin may
spin forever, so they take a bound on the number of samples (`fuel`); running
out of it is the completion `spinning`.
-/

namespace Ntk3900Spi

/-! ## Constants of `linux/spi/spidev.h` used by the binding -/

/-- Clock phase bit of the spidev mode byte. -/
def SPI_CPHA : Nat := 0x01
/-- Clock polarity bit of the spidev mode byte. -/
def SPI_CPOL : Nat := 0x02
/-- The `(0|0)` mode constant. -/
def SPI_MODE_0 : Nat := 0
/-- The `(0|SPI_CPHA)` mode constant. -/
def SPI_MODE_1 : Nat := SPI_CPHA
/-- The `(SPI_CPOL|0)` mode constant. -/
def SPI_MODE_2 : Nat := SPI_CPOL
/-- The `(SPI_CPOL|SPI_CPHA)` mode constant. -/
def SPI_MODE_3 : Nat := SPI_CPOL ||| SPI_CPHA
/-- Chip select is active high. -/
def SPI_CS_HIGH : Nat := 0x04
/-- Least significant bit first on the wire. -/
def SPI_LSB_FIRST : Nat := 0x08
/-- Shared data line (half duplex). -/
def SPI_3WIRE : Nat := 0x10
/-- Loopback mode. -/
def SPI_LOOP : Nat := 0x20
/-- No chip select line. -/
def SPI_NO_CS : Nat := 0x40

/-- The three scalar configuration requests that `Open` issues. -/
inductive IoctlRequest where
  | SPI_IOC_WR_MODE
  | SPI_IOC_WR_BITS_PER_WORD
  | SPI_IOC_WR_MAX_SPEED_HZ
  deriving DecidableEq, Repr

/-! ## Machine arithmetic -/

/-- Conversion of a C `int` to an unsigned integer type of `w` bits. -/
def toUnsigned (w : Nat) (v : Int) : Nat := (v % (2 : Int) ^ w).toNat

/-- The value `(size_t)-1` for a `size_t` of `w` bits. -/
def SIZE_MAX (w : Nat) : Nat := 2 ^ w - 1

/-- The operator `~` on a value that is then used as a 32-bit unsigned mask. -/
def not32 (x : Nat) : Nat := (2 ^ 32 - 1) ^^^ x

/-- The expression `1 << g` stored to or compared with a 32-bit register.  The
    shift is only defined in C for `g < 32`; beyond that the embedding keeps the
    low 32 bits, which are all zero. -/
def bit32 (g : Nat) : Nat := (1 <<< g) % 2 ^ 32

/-- The macro `MAX(a,b) (a>b ? a:b)`. -/
def MAX (a b : Nat) : Nat := if a > b then a else b

/-! ## JavaScript values, return values, exceptions -/

/-- The JavaScript values the binding tells apart with `IsNull`, `IsInt32`,
    `IsBoolean` and `Buffer::HasInstance`.  A node `Buffer` is the address of
    its bytes (`Buffer::Data`) and its byte length (`Buffer::Length`). -/
inductive JSValue where
  | null
  | undefined
  | int32 (v : Int)
  | number
  | boolean (b : Bool)
  | string (s : String)
  | buffer (data : Nat) (length : Nat)
  | object
  deriving DecidableEq, Repr

/-- The test `args[i]->IsNull()`. -/
def JSValue.IsNull : JSValue → Bool
  | .null => true
  | _ => false

/-- What `args.GetReturnValue().Set(...)` was given. -/
inductive RetVal where
  | this
  | uint (n : Nat)
  | bool (b : Bool)
  | int (i : Int)
  deriving DecidableEq, Repr

/-- The exceptions the binding throws through `EXCEPTION(X)`, one constructor
    per message text. -/
inductive Exn where
  /-- The text "Unable to open device". -/
  | unableToOpenDevice
  /-- The text "Unable to set " followed by the request name. -/
  | unableToSet (ctrl : IoctlRequest)
  /-- The text "can't open /dev/mem". -/
  | cantOpenDevMem
  /-- The text "mmap error". -/
  | mmapError
  /-- The text "Device not opened". -/
  | deviceNotOpened
  /-- The text "Cannot be called once device is opened". -/
  | cannotBeCalledOnceOpened
  /-- The text "Both buffers cannot be null". -/
  | bothBuffersNull
  /-- The text "Read and write buffers MUST be the same length". -/
  | buffersSameLength
  /-- The text "Unable to send SPI message". -/
  | unableToSendMessage
  /-- The text "Argument 1 must be one of the SPI_MODE_X constants". -/
  | notAModeConstant
  /-- The text of `ERROR_EXPECTED_ARGUMENTS`. -/
  | expectedArguments
  /-- The text of `ERROR_ARGUMENT_NOT_INTEGER`. -/
  | argumentNotInteger
  /-- The text of `ERROR_ARGUMENT_NOT_BOOLEAN`. -/
  | argumentNotBoolean
  /-- The text of `ERROR_OUT_OF_RANGE`. -/
  | argumentOutOfRange
  deriving DecidableEq, Repr

/-- The four kinds of failure the specification distinguishes. -/
inductive ErrorKind where
  | ArgumentError
  | StateError
  | ProtocolError
  | IOError
  deriving DecidableEq, Repr

/-- The kind under which the specification files each message of the binding
    (the binding itself throws every one of them as a `TypeError`). -/
def Exn.kind : Exn → ErrorKind
  | .expectedArguments => .ArgumentError
  | .argumentNotInteger => .ArgumentError
  | .argumentNotBoolean => .ArgumentError
  | .argumentOutOfRange => .ArgumentError
  | .notAModeConstant => .ArgumentError
  | .deviceNotOpened => .StateError
  | .cannotBeCalledOnceOpened => .StateError
  | .bothBuffersNull => .ProtocolError
  | .buffersSameLength => .ProtocolError
  | .unableToOpenDevice => .IOError
  | .unableToSet _ => .IOError
  | .cantOpenDevMem => .IOError
  | .mmapError => .IOError
  | .unableToSendMessage => .IOError

/-! ## The object, events, outcomes -/

/-- The fields of `class Spi`; `m_fd = -1` is the closed handle. -/
structure Spi where
  m_fd : Int
  m_mode : Nat
  m_max_speed : Nat
  m_delay : Nat
  m_bits_per_word : Nat
  m_wr_pin : Nat
  m_rdy_pin : Nat
  m_bseries : Bool
  m_invert_rdy : Bool
  deriving DecidableEq, Repr

/-- The constructor `Spi()`.  It leaves `m_bseries` uninitialised, so its value
    is a parameter here. -/
def Spi.ctor (bseries : Bool) : Spi :=
  { m_fd := -1, m_mode := 0, m_max_speed := 1000000, m_delay := 0,
    m_bits_per_word := 8, m_wr_pin := 0, m_rdy_pin := 0,
    m_bseries := bseries, m_invert_rdy := false }

/-- The argument block of one `SPI_IOC_MESSAGE(1)` call, in field order. -/
structure spi_ioc_transfer where
  tx_buf : Nat
  rx_buf : Nat
  len : Nat
  speed_hz : Nat
  delay_usecs : Nat
  bits_per_word : Nat
  cs_change : Nat
  tx_nbits : Nat
  rx_nbits : Nat
  pad : Nat
  deriving DecidableEq, Repr

/-- What a call does to the outside world, in program order. -/
inductive Event where
  /-- The call `open(path, flags)` of the device named by the argument, and its result. -/
  | openDevice (path : JSValue) (ret : Int)
  /-- One scalar configuration `ioctl(fd, ctrl, &value)` and its result. -/
  | ioctlSet (fd : Int) (ctrl : IoctlRequest) (value : Nat) (ret : Int)
  /-- The call `open("/dev/mem", O_RDWR|O_SYNC)` and its result. -/
  | openMem (ret : Int)
  /-- The `mmap` of the GPIO block through the given descriptor; `ok` is false for `MAP_FAILED`. -/
  | mmap (fd : Int) (ok : Bool)
  /-- The call `close(fd)`. -/
  | close (fd : Int)
  /-- The `printf` of the ready pin. -/
  | printf (pin : Nat)
  /-- A read of `*(gpio+word)` that produced `value`. -/
  | load (word : Nat) (value : Nat)
  /-- A write `*(gpio+word) = value`. -/
  | store (word : Nat) (value : Nat)
  /-- The call `delayMicrosecondsHard(howLong)`. -/
  | delayMicrosecondsHard (howLong : Nat)
  /-- One `ioctl(fd, SPI_IOC_MESSAGE(1), &data)` and its result. -/
  | ioctlMessage (fd : Int) (data : spi_ioc_transfer) (ret : Int)
  deriving DecidableEq, Repr

/-- How a call ends: with a return value, with a pending exception, by
    dereferencing the failed mapping, or still polling when the fuel ran out. -/
inductive Completion where
  | returned (v : RetVal)
  | threw (e : Exn)
  | fault
  | spinning
  deriving DecidableEq, Repr

/-- The result of one method call. -/
structure Outcome where
  self : Spi
  completion : Completion
  trace : List Event
  deriving DecidableEq, Repr

/-! ## Argument helpers (`Internal Functions` of `spi_binding.cc`) -/

/-- The check of `Spi::require_arguments`: false (and `expectedArguments` is
    thrown) when fewer than `count` arguments were passed. -/
def require_arguments (args : List JSValue) (count : Nat) : Bool :=
  !(decide (args.length < count))

/-- The overload of `Spi::get_argument` for `int&`: the value of an Int32
    argument, or the exception it throws. -/
def get_argument_int (args : List JSValue) (offset : Nat) : Except Exn Int :=
  match args.get? offset with
  | some (.int32 v) => .ok v
  | _ => .error .argumentNotInteger

/-- The overload of `Spi::get_argument` for `bool&`. -/
def get_argument_bool (args : List JSValue) (offset : Nat) : Except Exn Bool :=
  match args.get? offset with
  | some (.boolean b) => .ok b
  | _ => .error .argumentNotBoolean

/-- The test of both overloads of `Spi::get_if_no_args`: true when the call
    is a getter, in which case the current value is the return value. -/
def get_if_no_args (args : List JSValue) (offset : Nat) : Bool :=
  decide (args.length ≤ offset)

/-- The function `Spi::get_argument_greater_than`. -/
def get_argument_greater_than (args : List JSValue) (offset : Nat) (target : Int) :
    Except Exn Int :=
  match get_argument_int args offset with
  | .error e => .error e
  | .ok value => if value ≤ target then .error .argumentOutOfRange else .ok value

/-! ## Accessors -/

/-- The method `mode`: `Spi::GetSetMode`. -/
def GetSetMode (self : Spi) (args : List JSValue) : Outcome :=
  if get_if_no_args args 0 then ⟨self, .returned (.uint self.m_mode), []⟩
  else match get_argument_int args 0 with
    | .error e => ⟨self, .threw e, []⟩
    | .ok in_mode =>
      if self.m_fd ≠ -1 then ⟨self, .threw .cannotBeCalledOnceOpened, []⟩
      else if in_mode = SPI_MODE_0 ∨ in_mode = SPI_MODE_1 ∨
          in_mode = SPI_MODE_2 ∨ in_mode = SPI_MODE_3 then
        ⟨{ self with m_mode := toUnsigned 32 in_mode }, .returned .this, []⟩
      else ⟨self, .threw .notAModeConstant, []⟩

/-- The method `chipSelect`: `Spi::GetSetChipSelect`. -/
def GetSetChipSelect (self : Spi) (args : List JSValue) : Outcome :=
  if get_if_no_args args 0 then
    ⟨self, .returned (.uint (self.m_mode &&& (SPI_CS_HIGH ||| SPI_NO_CS))), []⟩
  else match get_argument_int args 0 with
    | .error e => ⟨self, .threw e, []⟩
    | .ok in_value =>
      if self.m_fd ≠ -1 then ⟨self, .threw .cannotBeCalledOnceOpened, []⟩
      else if in_value = SPI_CS_HIGH then
        ⟨{ self with m_mode := (self.m_mode ||| SPI_CS_HIGH) &&& not32 SPI_NO_CS },
          .returned .this, []⟩
      else if in_value = SPI_NO_CS then
        ⟨{ self with m_mode := (self.m_mode ||| SPI_NO_CS) &&& not32 SPI_CS_HIGH },
          .returned .this, []⟩
      else
        ⟨{ self with m_mode := self.m_mode &&& not32 (SPI_NO_CS ||| SPI_CS_HIGH) },
          .returned .this, []⟩

/-- The method `size`: `Spi::GetSetBitsPerWord`; the field is a `uint8_t`. -/
def GetSetBitsPerWord (self : Spi) (args : List JSValue) : Outcome :=
  if get_if_no_args args 0 then ⟨self, .returned (.uint self.m_bits_per_word), []⟩
  else match get_argument_greater_than args 0 0 with
    | .error e => ⟨self, .threw e, []⟩
    | .ok in_value =>
      if self.m_fd ≠ -1 then ⟨self, .threw .cannotBeCalledOnceOpened, []⟩
      else ⟨{ self with m_bits_per_word := toUnsigned 8 in_value }, .returned .this, []⟩

/-- The method `maxSpeed`: `Spi::GetSetMaxSpeed`; the field is a `uint32_t`. -/
def GetSetMaxSpeed (self : Spi) (args : List JSValue) : Outcome :=
  if get_if_no_args args 0 then ⟨self, .returned (.uint self.m_max_speed), []⟩
  else match get_argument_greater_than args 0 0 with
    | .error e => ⟨self, .threw e, []⟩
    | .ok in_value =>
      if self.m_fd ≠ -1 then ⟨self, .threw .cannotBeCalledOnceOpened, []⟩
      else ⟨{ self with m_max_speed := toUnsigned 32 in_value }, .returned .this, []⟩

/-- The method `wrPin`: `Spi::GetSetWrPin`; the field is a `uint32_t`. -/
def GetSetWrPin (self : Spi) (args : List JSValue) : Outcome :=
  if get_if_no_args args 0 then ⟨self, .returned (.uint self.m_wr_pin), []⟩
  else match get_argument_greater_than args 0 0 with
    | .error e => ⟨self, .threw e, []⟩
    | .ok in_value =>
      if self.m_fd ≠ -1 then ⟨self, .threw .cannotBeCalledOnceOpened, []⟩
      else ⟨{ self with m_wr_pin := toUnsigned 32 in_value }, .returned .this, []⟩

/-- The method `rdyPin`: `Spi::GetSetRdyPin`; the field is a `uint32_t`. -/
def GetSetRdyPin (self : Spi) (args : List JSValue) : Outcome :=
  if get_if_no_args args 0 then ⟨self, .returned (.uint self.m_rdy_pin), []⟩
  else match get_argument_greater_than args 0 0 with
    | .error e => ⟨self, .threw e, []⟩
    | .ok in_value =>
      if self.m_fd ≠ -1 then ⟨self, .threw .cannotBeCalledOnceOpened, []⟩
      else ⟨{ self with m_rdy_pin := toUnsigned 32 in_value }, .returned .this, []⟩

/-- The method `delay`: `Spi::GetSetDelay`; the field is a `uint16_t`. -/
def GetSetDelay (self : Spi) (args : List JSValue) : Outcome :=
  if get_if_no_args args 0 then ⟨self, .returned (.uint self.m_delay), []⟩
  else match get_argument_greater_than args 0 0 with
    | .error e => ⟨self, .threw e, []⟩
    | .ok in_value =>
      if self.m_fd ≠ -1 then ⟨self, .threw .cannotBeCalledOnceOpened, []⟩
      else ⟨{ self with m_delay := toUnsigned 16 in_value }, .returned .this, []⟩

/-- The method `invertRdy`: `Spi::GetSetInvertRdy`. -/
def GetSetInvertRdy (self : Spi) (args : List JSValue) : Outcome :=
  if get_if_no_args args 0 then ⟨self, .returned (.bool self.m_invert_rdy), []⟩
  else match get_argument_bool args 0 with
    | .error e => ⟨self, .threw e, []⟩
    | .ok in_value => ⟨{ self with m_invert_rdy := in_value }, .returned .this, []⟩

/-- The method `bSeries`: `Spi::GetSetbSeries`. -/
def GetSetbSeries (self : Spi) (args : List JSValue) : Outcome :=
  if get_if_no_args args 0 then ⟨self, .returned (.bool self.m_bseries), []⟩
  else match get_argument_bool args 0 with
    | .error e => ⟨self, .threw e, []⟩
    | .ok in_value => ⟨{ self with m_bseries := in_value }, .returned .this, []⟩

/-- The method `halfDuplex`: `Spi::GetSet3Wire`. -/
def GetSet3Wire (self : Spi) (args : List JSValue) : Outcome :=
  if get_if_no_args args 0 then
    ⟨self, .returned (.bool (decide (self.m_mode &&& SPI_3WIRE > 0))), []⟩
  else match get_argument_bool args 0 with
    | .error e => ⟨self, .threw e, []⟩
    | .ok in_value =>
      if in_value then ⟨{ self with m_mode := self.m_mode ||| SPI_3WIRE }, .returned .this, []⟩
      else ⟨{ self with m_mode := self.m_mode &&& not32 SPI_3WIRE }, .returned .this, []⟩

/-- The function `Spi::get_set_mode_toggle`. -/
def get_set_mode_toggle (self : Spi) (args : List JSValue) (mask : Nat) : Outcome :=
  if get_if_no_args args 0 then
    ⟨self, .returned (.bool (decide (self.m_mode &&& mask > 0))), []⟩
  else match get_argument_bool args 0 with
    | .error e => ⟨self, .threw e, []⟩
    | .ok in_value =>
      if in_value then ⟨{ self with m_mode := self.m_mode ||| mask }, .returned .this, []⟩
      else ⟨{ self with m_mode := self.m_mode &&& not32 mask }, .returned .this, []⟩

/-- The method `loopback`: `SPI_FUNC_BOOLEAN_TOGGLE_IMPL(GetSetLoop, SPI_LOOP)`. -/
def GetSetLoop (self : Spi) (args : List JSValue) : Outcome :=
  get_set_mode_toggle self args SPI_LOOP

/-- The method `bitOrder`: `SPI_FUNC_BOOLEAN_TOGGLE_IMPL(GetSetBitOrder, SPI_LSB_FIRST)`. -/
def GetSetBitOrder (self : Spi) (args : List JSValue) : Outcome :=
  get_set_mode_toggle self args SPI_LSB_FIRST

/-! ## GPIO register block (`spi_binding.h` macros) -/

/-- The contents of the mapped GPIO block, one 32-bit word per index
    (`*(gpio+i)`).  Indices are not checked against `BLOCK_SIZE`. -/
abbrev Gpio := Nat → Nat

/-- The assignment `*(gpio+word) = value`. -/
def Gpio.write (gpio : Gpio) (word value : Nat) : Gpio :=
  fun i => if i = word then value else gpio i

/-- The macro `INP_GPIO(g)`: `*(gpio+((g)/10)) &= ~(7<<(((g)%10)*3))`. -/
def INP_GPIO (gpio : Gpio) (g : Nat) : Gpio × List Event :=
  let old := gpio (g / 10)
  let new := old &&& not32 (7 <<< ((g % 10) * 3))
  (gpio.write (g / 10) new, [Event.load (g / 10) old, Event.store (g / 10) new])

/-- The macro `OUT_GPIO(g)`: `*(gpio+((g)/10)) |= (1<<(((g)%10)*3))`. -/
def OUT_GPIO (gpio : Gpio) (g : Nat) : Gpio × List Event :=
  let old := gpio (g / 10)
  let new := old ||| (1 <<< ((g % 10) * 3))
  (gpio.write (g / 10) new, [Event.load (g / 10) old, Event.store (g / 10) new])

/-- Word index of the register behind the macro `GPIO_SET`. -/
def GPIO_SET : Nat := 7
/-- Word index of the register behind the macro `GPIO_CLR`. -/
def GPIO_CLR : Nat := 10
/-- Word index of the pin level register read by the macro `GET_GPIO`. -/
def GPIO_LEV : Nat := 13
/-- Word index of the register behind the macro `GPIO_PULL`. -/
def GPIO_PULL : Nat := 37
/-- Word index of the register behind the macro `GPIO_PULLCLK0`. -/
def GPIO_PULLCLK0 : Nat := 38

/-- The macro `GET_GPIO(g)` applied to the word read from the level register:
    `(*(gpio+13)&(1<<g))`, 0 if low and `1<<g` if high. -/
def GET_GPIO (g : Nat) (lev : Nat) : Nat := lev &&& bit32 g

/-! ## open and close -/

/-- What the kernel answers during one `Open`. -/
structure Kernel where
  /-- Result of `open(device, O_RDWR)`: a descriptor, or `none` for failure (-1). -/
  device : Option Nat
  /-- Result of the `SPI_IOC_WR_MODE` ioctl. -/
  wr_mode : Int
  /-- Result of the `SPI_IOC_WR_BITS_PER_WORD` ioctl. -/
  wr_bits_per_word : Int
  /-- Result of the `SPI_IOC_WR_MAX_SPEED_HZ` ioctl. -/
  wr_max_speed_hz : Int
  /-- Result of `open("/dev/mem", O_RDWR|O_SYNC)`. -/
  mem : Option Nat
  /-- Whether `mmap` returned something other than `MAP_FAILED`. -/
  mmap_ok : Bool

/-- The `int` a call of `open` returns. -/
def fdOf : Option Nat → Int
  | some fd => (fd : Int)
  | none => -1

/-- The pin set-up at the end of `Spi::Open` (from `INP_GPIO(self->m_wr_pin)` to
    `GPIO_PULLCLK0 = 0`). -/
def setup_pins (self : Spi) (gpio : Gpio) : Gpio × List Event :=
  let s1 := INP_GPIO gpio self.m_wr_pin
  let s2 := OUT_GPIO s1.1 self.m_wr_pin
  let s3 := INP_GPIO s2.1 self.m_rdy_pin
  let g4 := s3.1.write GPIO_PULL 1
  let g5 := g4.write GPIO_PULLCLK0 (bit32 self.m_rdy_pin)
  let g6 := g5.write GPIO_PULL 0
  let g7 := g6.write GPIO_PULLCLK0 0
  (g7, s1.2 ++ s2.2 ++ s3.2 ++
    [Event.store GPIO_PULL 1, Event.delayMicrosecondsHard 5,
     Event.store GPIO_PULLCLK0 (bit32 self.m_rdy_pin), Event.delayMicrosecondsHard 5,
     Event.store GPIO_PULL 0, Event.store GPIO_PULLCLK0 0])

/-- The method `open`: `Spi::Open`.  The second component is the GPIO block
    afterwards.  When `mmap` fails the exception is raised without returning and
    the next statement dereferences `MAP_FAILED`: the completion `fault`. -/
def Open (k : Kernel) (gpio : Gpio) (self : Spi) (args : List JSValue) : Outcome × Gpio :=
  if !require_arguments args 1 then (⟨self, .threw .expectedArguments, []⟩, gpio)
  else if self.m_fd ≠ -1 then (⟨self, .threw .cannotBeCalledOnceOpened, []⟩, gpio)
  else
    let device := args.getD 0 .undefined
    let fd := fdOf k.device
    let self := { self with m_fd := fd }
    let t0 := [Event.openDevice device fd]
    if fd < 0 then (⟨self, .threw .unableToOpenDevice, t0⟩, gpio)
    else
      let t1 := t0 ++ [Event.ioctlSet fd .SPI_IOC_WR_MODE self.m_mode k.wr_mode]
      if k.wr_mode = -1 then (⟨self, .threw (.unableToSet .SPI_IOC_WR_MODE), t1⟩, gpio)
      else
        let t2 := t1 ++
          [Event.ioctlSet fd .SPI_IOC_WR_BITS_PER_WORD self.m_bits_per_word k.wr_bits_per_word]
        if k.wr_bits_per_word = -1 then
          (⟨self, .threw (.unableToSet .SPI_IOC_WR_BITS_PER_WORD), t2⟩, gpio)
        else
          let t3 := t2 ++
            [Event.ioctlSet fd .SPI_IOC_WR_MAX_SPEED_HZ self.m_max_speed k.wr_max_speed_hz]
          if k.wr_max_speed_hz = -1 then
            (⟨self, .threw (.unableToSet .SPI_IOC_WR_MAX_SPEED_HZ), t3⟩, gpio)
          else
            let mem_fd := fdOf k.mem
            let t4 := t3 ++ [Event.openMem mem_fd]
            if mem_fd < 0 then (⟨self, .threw .cantOpenDevMem, t4⟩, gpio)
            else
              let t5 := t4 ++ [Event.mmap mem_fd k.mmap_ok, Event.close mem_fd]
              if !k.mmap_ok then
                (⟨self, .fault, t5 ++ [Event.printf self.m_rdy_pin]⟩, gpio)
              else
                let s := setup_pins self gpio
                (⟨self, .returned .this, t5 ++ [Event.printf self.m_rdy_pin] ++ s.2⟩, s.1)

/-- The method `close`: `Spi::Close`. -/
def Close (self : Spi) (_args : List JSValue) : Outcome :=
  if self.m_fd = -1 then ⟨self, .returned .this, []⟩
  else ⟨{ self with m_fd := -1 }, .returned .this, [Event.close self.m_fd]⟩

/-! ## transfer -/

/-- What the bus and the peer device answer during one `transfer`. -/
structure Bus where
  /-- The word produced by the `k`-th read of the pin level register in this call. -/
  level : Nat → Nat
  /-- The result of the `j`-th `SPI_IOC_MESSAGE(1)` ioctl in this call. -/
  message : Nat → Int

/-- The condition of the busy-wait loop chosen by `m_invert_rdy`:
    `while(GET_GPIO(pin)){}` when it is set, `while(!GET_GPIO(pin)){}` otherwise. -/
def busy (invert_rdy : Bool) (pin : Nat) (lev : Nat) : Bool :=
  if invert_rdy then decide ( GET_GPIO pin lev ≠ 0) else decide ( GET_GPIO pin lev = 0)

/-- One busy-wait loop on the ready pin, starting at the `k`-th read of the
    level register and allowed `fuel` reads.  Returns the reads it made and the
    index of the next read, or `none` when the pin was still busy at the end. -/
def poll (invert_rdy : Bool) (pin : Nat) (bus : Bus) : Nat → Nat → List Event × Option Nat
  | 0, _ => ([], none)
  | fuel + 1, k =>
    if busy invert_rdy pin (bus.level k) then
      let r := poll invert_rdy pin bus fuel (k + 1)
      (Event.load GPIO_LEV (bus.level k) :: r.1, r.2)
    else ([Event.load GPIO_LEV (bus.level k)], some (k + 1))

/-- The strobe after each byte: `if (self->m_wr_pin) { GPIO_CLR = ...; GPIO_SET = ...; }`. -/
def strobe (self : Spi) : List Event :=
  if self.m_wr_pin ≠ 0 then
    [Event.store GPIO_CLR (bit32 self.m_wr_pin), Event.store GPIO_SET (bit32 self.m_wr_pin)]
  else []

/-- The loop `while (length--) { ... }` of `Spi::full_duplex_transfer`: `k` reads of
    the level register and `j` messages were made before, `ret` is the current
    value of the variable `ret`.  Returns the events and the final `ret`, or
    `none` when a busy-wait ran out of fuel. -/
def send_loop (self : Spi) (bus : Bus) (fuel : Nat) :
    Nat → spi_ioc_transfer → Nat → Nat → Int → List Event × Option Int
  | 0, _, _, _, ret => ([], some ret)
  | length + 1, data, k, j, _ =>
    let ret := bus.message j
    let head := [Event.ioctlMessage self.m_fd data ret] ++ strobe self ++
      [Event.delayMicrosecondsHard (if self.m_invert_rdy then 10 else 1)]
    let p := poll self.m_invert_rdy self.m_rdy_pin bus fuel k
    match p.2 with
    | none => (head ++ p.1, none)
    | some k1 =>
      let r := send_loop self bus fuel length
        { data with tx_buf := (data.tx_buf + 1) % 2 ^ 64 } k1 (j + 1) ret
      (head ++ p.1 ++ r.1, r.2)

/-- The function `Spi::full_duplex_transfer`; `write` and `read` are the two
    pointers (0 is `NULL`), converted to the 64-bit members `tx_buf` and `rx_buf`. -/
def full_duplex_transfer (bus : Bus) (fuel : Nat) (self : Spi) (write read length : Nat)
    (speed delay bits : Nat) : Outcome :=
  let data : spi_ioc_transfer :=
    { tx_buf := write % 2 ^ 64, rx_buf := read % 2 ^ 64, len := 1, speed_hz := speed,
      delay_usecs := delay,
      bits_per_word := bits, cs_change := 0, tx_nbits := 0, rx_nbits := 0, pad := 0 }
  let t0 := [Event.store GPIO_SET (bit32 self.m_wr_pin)]
  let p := poll self.m_invert_rdy self.m_rdy_pin bus fuel 0
  match p.2 with
  | none => ⟨self, .spinning, t0 ++ p.1⟩
  | some k =>
    let r := send_loop self bus fuel length data k 0 0
    match r.2 with
    | none => ⟨self, .spinning, t0 ++ p.1 ++ r.1⟩
    | some ret =>
      if ret = -1 then ⟨self, .threw .unableToSendMessage, t0 ++ p.1 ++ r.1⟩
      else ⟨self, .returned (.int ret), t0 ++ p.1 ++ r.1⟩

/-- The ready pin is seen ready within `fuel` samples from every point of the
    stream of level reads, so that no busy-wait of the handle runs out of fuel. -/
def ReadyWithin (fuel : Nat) (self : Spi) (bus : Bus) : Prop :=
  ∀ k, ∃ j, j < fuel ∧ busy self.m_invert_rdy self.m_rdy_pin (bus.level (k + j)) = false

/-- The pointer `Spi::Transfer` takes from an argument: `Buffer::Data` of a
    buffer, `NULL` otherwise. -/
def buffer_data : JSValue → Nat
  | .buffer data _ => data
  | _ => 0

/-- The length `Spi::Transfer` takes from an argument: `Buffer::Length` of a
    buffer; otherwise the initial value `-1` of the `size_t` variable. -/
def buffer_length (w : Nat) : JSValue → Nat
  | .buffer _ length => length
  | _ => SIZE_MAX w

/-- The method `transfer`: `Spi::Transfer`, for a `size_t` of `w` bits. -/
def Transfer (w : Nat) (bus : Bus) (fuel : Nat) (self : Spi) (args : List JSValue) : Outcome :=
  if self.m_fd = -1 then ⟨self, .threw .deviceNotOpened, []⟩
  else if !require_arguments args 2 then ⟨self, .threw .expectedArguments, []⟩
  else
    let a0 := args.getD 0 .undefined
    let a1 := args.getD 1 .undefined
    if a0.IsNull && a1.IsNull then ⟨self, .threw .bothBuffersNull, []⟩
    else
      let write_buffer := buffer_data a0
      let write_length := buffer_length w a0
      let read_buffer := buffer_data a1
      let read_length := buffer_length w a1
      if write_length > 0 ∧ read_length > 0 ∧ write_length ≠ read_length then
        ⟨self, .threw .buffersSameLength, []⟩
      else
        full_duplex_transfer bus fuel self write_buffer read_buffer
          (MAX write_length read_length) self.m_max_speed self.m_delay self.m_bits_per_word

/-! ## Reading a trace -/

/-- The argument block and result of an event that is a message transaction. -/
def Event.transaction : Event → Option (spi_ioc_transfer × Int)
  | .ioctlMessage _ data ret => some (data, ret)
  | _ => none

/-- The message transactions of a trace, in order: argument block and result. -/
def transactions (trace : List Event) : List (spi_ioc_transfer × Int) :=
  trace.filterMap Event.transaction

/-! ## The accessors whose argument must be positive -/

/-- The five methods that read their argument with `get_argument_greater_than`. -/
inductive PositiveField where
  | maxSpeed
  | size
  | delay
  | wrPin
  | rdyPin
  deriving DecidableEq, Repr

/-- The native function `Spi::Initialize` registers under each of these names. -/
def PositiveField.method : PositiveField → Spi → List JSValue → Outcome
  | .maxSpeed => GetSetMaxSpeed
  | .size => GetSetBitsPerWord
  | .delay => GetSetDelay
  | .wrPin => GetSetWrPin
  | .rdyPin => GetSetRdyPin

/-- The width in bits of the member each of them stores to (`uint32_t m_max_speed`,
    `uint8_t m_bits_per_word`, `uint16_t m_delay`, `uint32_t m_wr_pin`,
    `uint32_t m_rdy_pin`). -/
def PositiveField.bits : PositiveField → Nat
  | .maxSpeed => 32
  | .size => 8
  | .delay => 16
  | .wrPin => 32
  | .rdyPin => 32

/-! ## The handshake of a transfer, read off its trace -/

/-- Whether an event is a kernel message transaction. -/
def Event.isTransaction : Event → Bool
  | .ioctlMessage _ _ _ => true
  | _ => false

/-- Whether a word read from the level register shows the ready pin at the ready
    polarity: low when `m_invert_rdy` is set, high otherwise. -/
def readyLevel (self : Spi) (lev : Nat) : Bool :=
  if self.m_invert_rdy then !lev.testBit self.m_rdy_pin else lev.testBit self.m_rdy_pin

/-- A run of samples of the ready pin that ends at the first one with the ready polarity. -/
def ReadyWait (self : Spi) (l : List Event) : Prop :=
  ∃ (vs : List Nat) (v : Nat), l = vs.map (Event.load GPIO_LEV) ++ [Event.load GPIO_LEV v] ∧
    (∀ x ∈ vs, readyLevel self x = false) ∧ readyLevel self v = true

/-- A run of samples of the ready pin none of which has the ready polarity. -/
def BusyWait (self : Spi) (l : List Event) : Prop :=
  ∃ vs : List Nat, l = vs.map (Event.load GPIO_LEV) ∧ ∀ x ∈ vs, readyLevel self x = false

/-- What lies between two consecutive transactions: the strobe pulse (clear, then set)
    when the write pin is non-zero, the fixed delay of 10 or 1 microseconds, and the
    samples of the ready pin up to the first one with the ready polarity. -/
def Handshake (self : Spi) (mid : List Event) : Prop :=
  ∃ w, ReadyWait self w ∧
    mid = (if self.m_wr_pin ≠ 0 then
            [Event.store GPIO_CLR (bit32 self.m_wr_pin),
             Event.store GPIO_SET (bit32 self.m_wr_pin)] else []) ++
          [Event.delayMicrosecondsHard (if self.m_invert_rdy then 10 else 1)] ++ w

/-- A list of events without a transaction. -/
def NoTransaction (l : List Event) : Prop := ∀ e ∈ l, e.isTransaction = false

/-- A list of events whose last one is a sample with the ready polarity. -/
def EndsReady (self : Spi) (l : List Event) : Prop :=
  ∃ (pre : List Event) (v : Nat), l = pre ++ [Event.load GPIO_LEV v] ∧ readyLevel self v = true

/-- The events of one turn of the byte loop after its transaction: strobe pulse, delay
    and the samples `w` of the wait. -/
def gap (self : Spi) (w : List Event) : List Event :=
  strobe self ++ [Event.delayMicrosecondsHard (if self.m_invert_rdy then 10 else 1)] ++ w

/-- The events of the byte loop: each transaction is followed by strobe pulse, delay and
    a wait that ends at a ready sample, except that the last wait is unfinished when the
    fuel ran out. -/
inductive Rounds (self : Spi) : List Event → Prop where
  | done : Rounds self []
  | stuck (m : Event) (w : List Event) : m.isTransaction = true → BusyWait self w →
      Rounds self (m :: gap self w)
  | round (m : Event) (w rest : List Event) : m.isTransaction = true → ReadyWait self w →
      Rounds self rest → Rounds self (m :: (gap self w ++ rest))

/-- The ordering of a trace: every transaction comes directly after a ready sample,
    what lies between two consecutive transactions is a handshake, and a transaction
    after a sample that is not ready has a ready sample in between. -/
def Ordered (self : Spi) (t : List Event) : Prop :=
  (∀ pre m post, t = pre ++ m :: post → m.isTransaction = true → EndsReady self pre) ∧
  (∀ pre m1 mid m2 post, t = pre ++ m1 :: (mid ++ m2 :: post) →
    m1.isTransaction = true → m2.isTransaction = true → NoTransaction mid →
    Handshake self mid) ∧
  (∀ pre v mid m post, t = pre ++ Event.load GPIO_LEV v :: (mid ++ m :: post) →
    readyLevel self v = false → m.isTransaction = true →
    ∃ v1, Event.load GPIO_LEV v1 ∈ mid ∧ readyLevel self v1 = true)

/-! ## Function-select fields of the GPIO block -/

/-- The 3-bit field of the word `x` that starts at bit `s`. -/
def field (x s : Nat) : Nat := (x >>> s) &&& 7

/-- The function-select field of a pin: the three bits of word `pin / 10` that start at
    bit `3 * (pin mod 10)`; 0 is input, 1 is output. -/
def fsel (gpio : Gpio) (pin : Nat) : Nat := (gpio (pin / 10) >>> ((pin % 10) * 3)) &&& 7

/-! ## Concrete handles and buses used as test inputs -/

/-- A closed handle as the constructor leaves it. -/
def closedHandle : Spi := Spi.ctor false

/-- An open handle on descriptor 3 with write strobe on pin 17 and ready on pin 27. -/
def openHandle : Spi :=
  { m_fd := 3, m_mode := 0, m_max_speed := 1000000, m_delay := 0, m_bits_per_word := 8,
    m_wr_pin := 17, m_rdy_pin := 27, m_bseries := false, m_invert_rdy := false }

/-- A bus on which pin 27 always reads high and the `j`-th message returns `j + 1`. -/
def readyBus : Bus :=
  { level := fun _ => bit32 27, message := fun j => (j : Int) + 1 }

/-- A bus like `readyBus` whose first message fails. -/
def firstFailsBus : Bus :=
  { level := fun _ => bit32 27, message := fun j => if j = 0 then -1 else 1 }

/-- A kernel that opens the device as descriptor 3 and accepts everything. -/
def goodKernel : Kernel :=
  { device := some 3, wr_mode := 0, wr_bits_per_word := 0, wr_max_speed_hz := 0,
    mem := some 4, mmap_ok := true }

/-- A kernel that opens the device as descriptor 3 and rejects `SPI_IOC_WR_MODE`. -/
def modeFailsKernel : Kernel :=
  { device := some 3, wr_mode := -1, wr_bits_per_word := 0, wr_max_speed_hz := 0,
    mem := some 4, mmap_ok := true }

/-- A kernel that cannot open the device. -/
def noDeviceKernel : Kernel :=
  { device := none, wr_mode := 0, wr_bits_per_word := 0, wr_max_speed_hz := 0,
    mem := some 4, mmap_ok := true }

/-- A GPIO block with every word zero. -/
def zeroGpio : Gpio := fun _ => 0

/-- A bus on which pin 27 reads low at every even sample and high at every odd one, and
    the `j`-th message returns `j + 1`. -/
def slowBus : Bus :=
  { level := fun k => if k % 2 = 0 then 0 else bit32 27, message := fun j => (j : Int) + 1 }

/-- A closed handle configured with write strobe on pin 17 and ready on pin 27. -/
def configuredHandle : Spi :=
  { m_fd := -1, m_mode := 0, m_max_speed := 1000000, m_delay := 0, m_bits_per_word := 8,
    m_wr_pin := 17, m_rdy_pin := 27, m_bseries := false, m_invert_rdy := false }

/-- A GPIO block with every bit of every word set. -/
def onesGpio : Gpio := fun _ => 0xFFFFFFFF

/-! # Theorems -/

/-! ## Lemmas on the busy-wait and the byte loop -/

/-- A busy-wait only reads the level register: it issues no transaction. -/
theorem poll_transactions (inv : Bool) (pin : Nat) (bus : Bus) (fuel k : Nat) :
    transactions (poll inv pin bus fuel k).1 = [] := by
  induction fuel generalizing k with
  | zero => simp [poll, transactions]
  | succ n ih =>
    unfold poll
    split
    · have := ih (k + 1)
      simp only [transactions] at this ⊢
      simp [List.filterMap_cons, Event.transaction, this]
    · simp [transactions, Event.transaction]

/-- A busy-wait that meets a ready sample within its fuel ends. -/
theorem poll_finishes (inv : Bool) (pin : Nat) (bus : Bus) (fuel k : Nat)
    (h : ∃ j, j < fuel ∧ busy inv pin (bus.level (k + j)) = false) :
    ∃ k1, (poll inv pin bus fuel k).2 = some k1 := by
  induction fuel generalizing k with
  | zero => obtain ⟨j, hj, _⟩ := h; omega
  | succ n ih =>
    unfold poll
    by_cases hb : busy inv pin (bus.level k) = true
    · simp only [hb, if_true]
      obtain ⟨j, hj, hr⟩ := h
      cases j with
      | zero => simp [hb] at hr
      | succ j =>
        apply ih (k + 1)
        refine ⟨j, by omega, ?_⟩
        have : k + 1 + j = k + (j + 1) := by omega
        rw [this]; exact hr
    · simp [hb]

/-- The strobe pulse issues no transaction. -/
theorem strobe_transactions (self : Spi) : transactions (strobe self) = [] := by
  unfold strobe; split <;> simp [transactions, Event.transaction]

/-- With the ready pin answering, the byte loop ends, and the variable `ret` then holds
    the result of the last transaction (or its initial value when `length` is 0). -/
theorem send_loop_ret (self : Spi) (bus : Bus) (fuel : Nat)
    (hready : ReadyWithin fuel self bus)
    (length : Nat) (data : spi_ioc_transfer) (k j : Nat) (ret : Int) :
    (send_loop self bus fuel length data k j ret).2
        = some (if length = 0 then ret else bus.message (j + length - 1)) := by
  induction length generalizing data k j ret with
  | zero => simp [send_loop]
  | succ n ih =>
    obtain ⟨k1, hk1⟩ := poll_finishes self.m_invert_rdy self.m_rdy_pin bus fuel k (hready k)
    simp only [send_loop, hk1]
    rw [ih]
    by_cases hn : n = 0
    · simp [hn]
    · simp only [hn, if_false, Nat.succ_ne_zero]
      congr 2
      omega

/-- With the ready pin answering, the byte loop issues one transaction per byte: the
    `i`-th with `tx_buf` advanced by `i` and every other member as at the start. -/
theorem send_loop_transactions (self : Spi) (bus : Bus) (fuel : Nat)
    (hready : ReadyWithin fuel self bus)
    (length : Nat) (data : spi_ioc_transfer) (k j : Nat) (ret : Int)
    (hdata : data.tx_buf < 2 ^ 64) :
    transactions (send_loop self bus fuel length data k j ret).1
        = (List.range length).map (fun i =>
            ({ data with tx_buf := (data.tx_buf + i) % 2 ^ 64 }, bus.message (j + i))) := by
  induction length generalizing data k j ret with
  | zero => simp [send_loop, transactions]
  | succ n ih =>
    obtain ⟨k1, hk1⟩ := poll_finishes self.m_invert_rdy self.m_rdy_pin bus fuel k (hready k)
    have hp := poll_transactions self.m_invert_rdy self.m_rdy_pin bus fuel k
    have hs := strobe_transactions self
    have ih2 := ih { data with tx_buf := (data.tx_buf + 1) % 2 ^ 64 } k1 (j + 1)
      (bus.message j) (Nat.mod_lt _ (by norm_num))
    simp only [send_loop, hk1]
    simp only [transactions] at hp hs ih2 ⊢
    simp only [List.filterMap_append, hp, hs, ih2, List.filterMap_cons, List.filterMap_nil,
      Event.transaction, List.range_succ_eq_map, List.map_cons, List.map_map,
      List.append_nil, List.singleton_append, Nat.add_zero, Nat.mod_eq_of_lt hdata]
    congr 1
    apply List.map_congr_left
    intro i _
    simp only [Function.comp, Nat.succ_eq_add_one]
    have h1 : ((data.tx_buf + 1) % 2 ^ 64 + i) % 2 ^ 64 = (data.tx_buf + (i + 1)) % 2 ^ 64 := by
      omega
    have h2 : j + 1 + i = j + (i + 1) := by omega
    rw [h1, h2]

/-- With the ready pin answering and `length >= 1`, `full_duplex_transfer` completes
    according to the result of the last transaction alone and leaves the handle as it was. -/
theorem full_duplex_transfer_completion (bus : Bus) (fuel : Nat) (self : Spi)
    (write read length speed delay bits : Nat)
    (hready : ReadyWithin fuel self bus) (hlen : 1 ≤ length) :
    (full_duplex_transfer bus fuel self write read length speed delay bits).completion
      = (if bus.message (length - 1) = -1 then .threw .unableToSendMessage
         else .returned (.int (bus.message (length - 1)))) ∧
    (full_duplex_transfer bus fuel self write read length speed delay bits).self = self := by
  obtain ⟨k0, hk0⟩ := poll_finishes self.m_invert_rdy self.m_rdy_pin bus fuel 0 (hready 0)
  have hne : length ≠ 0 := by omega
  simp only [full_duplex_transfer, hk0, send_loop_ret self bus fuel hready, hne, if_false,
    Nat.zero_add]
  split <;> simp

/-- With the ready pin answering, `full_duplex_transfer` issues exactly `length`
    message transactions: the `i`-th sends from `write + i`, receives at `read`
    (the receive pointer is never advanced), has length 1 and the given speed,
    delay and word size, and its result is the `i`-th answer of the bus. -/
theorem full_duplex_transfer_transactions (bus : Bus) (fuel : Nat) (self : Spi)
    (write read length speed delay bits : Nat) (hready : ReadyWithin fuel self bus) :
    transactions (full_duplex_transfer bus fuel self write read length speed delay bits).trace
      = (List.range length).map (fun i =>
          ({ tx_buf := (write + i) % 2 ^ 64, rx_buf := read % 2 ^ 64, len := 1,
             speed_hz := speed, delay_usecs := delay, bits_per_word := bits,
             cs_change := 0, tx_nbits := 0, rx_nbits := 0, pad := 0 }, bus.message i)) := by
  obtain ⟨k0, hk0⟩ := poll_finishes self.m_invert_rdy self.m_rdy_pin bus fuel 0 (hready 0)
  have hp := poll_transactions self.m_invert_rdy self.m_rdy_pin bus fuel 0
  have hl := send_loop_transactions self bus fuel hready length
    { tx_buf := write % 2 ^ 64, rx_buf := read % 2 ^ 64, len := 1, speed_hz := speed,
      delay_usecs := delay, bits_per_word := bits, cs_change := 0, tx_nbits := 0,
      rx_nbits := 0, pad := 0 } k0 0 0 (Nat.mod_lt _ (by norm_num))
  have hr := send_loop_ret self bus fuel hready length
    { tx_buf := write % 2 ^ 64, rx_buf := read % 2 ^ 64, len := 1, speed_hz := speed,
      delay_usecs := delay, bits_per_word := bits, cs_change := 0, tx_nbits := 0,
      rx_nbits := 0, pad := 0 } k0 0 0
  have key : transactions ([Event.store GPIO_SET (bit32 self.m_wr_pin)] ++
      (poll self.m_invert_rdy self.m_rdy_pin bus fuel 0).1 ++
      (send_loop self bus fuel length
        { tx_buf := write % 2 ^ 64, rx_buf := read % 2 ^ 64, len := 1, speed_hz := speed,
          delay_usecs := delay, bits_per_word := bits, cs_change := 0, tx_nbits := 0,
          rx_nbits := 0, pad := 0 } k0 0 0).1)
      = (List.range length).map (fun i =>
          ({ tx_buf := (write + i) % 2 ^ 64, rx_buf := read % 2 ^ 64, len := 1,
             speed_hz := speed, delay_usecs := delay, bits_per_word := bits,
             cs_change := 0, tx_nbits := 0, rx_nbits := 0, pad := 0 }, bus.message i)) := by
    simp only [transactions] at hp hl ⊢
    simp only [List.filterMap_append, hp, hl, List.filterMap_cons, List.filterMap_nil,
      Event.transaction, List.append_nil, List.nil_append, Nat.zero_add, Nat.mod_add_mod]
  simp only [full_duplex_transfer, hk0, hr]
  split <;> split <;> exact key

/-- A call of `Transfer` on an open handle that passes the two buffer checks is the call
    of `full_duplex_transfer` on the two pointers and the larger of the two lengths. -/
theorem Transfer_validated (w : Nat) (fuel : Nat) (self : Spi)
    (a0 a1 : JSValue) (rest : List JSValue)
    (hopen : self.m_fd ≠ -1)
    (hnull : ¬ (a0 = .null ∧ a1 = .null))
    (hvalid : ¬ (buffer_length w a0 > 0 ∧ buffer_length w a1 > 0 ∧
      buffer_length w a0 ≠ buffer_length w a1)) :
    ∀ b : Bus, Transfer w b fuel self (a0 :: a1 :: rest)
      = full_duplex_transfer b fuel self (buffer_data a0) (buffer_data a1)
          (MAX (buffer_length w a0) (buffer_length w a1))
          self.m_max_speed self.m_delay self.m_bits_per_word := by
  have hnull2 : ¬ (a0.IsNull = true ∧ a1.IsNull = true) := by
    intro h
    apply hnull
    cases a0 <;> cases a1 <;> simp_all [JSValue.IsNull]
  intro b
  simp only [Transfer, hopen, if_false, require_arguments, List.length_cons, List.getD_cons_zero,
    List.getD_cons_succ]
  simp [hnull2, hvalid]

/-! ## The claims -/

/-- C1 (the code departs from the claim): on an open handle, `transfer(writeBuffer, null)`
    with a write buffer of length `n >= 1` is rejected with the message "Read and write
    buffers MUST be the same length" (a ProtocolError) before any transaction or strobe
    pulse.  The length of the absent read buffer is the initial `(size_t)-1`, which the
    unsigned test `read_length > 0` lets through. -/
theorem Transfer_write_only_rejected (w : Nat) (bus : Bus) (fuel : Nat) (self : Spi)
    (data n : Nat) (rest : List JSValue)
    (hopen : self.m_fd ≠ -1) (hn : 1 ≤ n) (hlt : n < SIZE_MAX w) :
    Transfer w bus fuel self (.buffer data n :: .null :: rest)
      = ⟨self, .threw .buffersSameLength, []⟩ ∧
    Exn.kind .buffersSameLength = .ProtocolError := by
  refine ⟨?_, rfl⟩
  have h1 : 0 < n := hn
  have h2 : 0 < SIZE_MAX w := by omega
  have h3 : n ≠ SIZE_MAX w := by omega
  simp [Transfer, hopen, require_arguments, JSValue.IsNull, buffer_length, h1, h2, h3]

/-- C1, at the input of scenario B: `transfer([0xAA, 0xBB], null)` on an open handle,
    for a 32-bit `size_t`. -/
theorem Transfer_write_only_rejected_witness :
    openHandle.m_fd ≠ -1 ∧ 1 ≤ 2 ∧ 2 < SIZE_MAX 32 ∧
    Transfer 32 readyBus 8 openHandle [.buffer 4096 2, .null]
      = ⟨openHandle, .threw .buffersSameLength, []⟩ :=
  ⟨by decide, by decide, by decide,
    (Transfer_write_only_rejected 32 readyBus 8 openHandle 4096 2 [] (by decide) (by decide)
      (by decide)).1⟩

/-- C2 (the code departs from the claim): in `transfer(write, read)` with two buffers of
    length 2 at addresses 4096 and 8192, the second transaction sends from 4097 but
    receives at 8192 again, not at 8193: only `tx_buf` is incremented. -/
theorem Transfer_receive_pointer_not_advanced :
    (transactions
        (Transfer 64 readyBus 8 openHandle [.buffer 4096 2, .buffer 8192 2]).trace).map
      (fun t => (t.1.tx_buf, t.1.rx_buf, t.1.len)) = [(4096, 8192, 1), (4097, 8192, 1)] := by
  decide

/-- A positive `int` that fits `w` bits converts to itself. -/
theorem toUnsigned_of_lt (w : Nat) (v : Int) (h0 : 0 < v) (hlt : v < 2 ^ w) :
    toUnsigned w v = v.toNat := by
  unfold toUnsigned
  rw [Int.emod_eq_of_lt (le_of_lt h0) hlt]

/-- C3 (as stated, false): on a closed handle `size(256)` succeeds, yet the following
    `size()` returns 0, and `delay(65536)` succeeds, yet the following `delay()`
    returns 0: the members are a `uint8_t` and a `uint16_t`. -/
theorem size_256_reads_back_zero :
    (GetSetBitsPerWord closedHandle [.int32 256]).completion = .returned .this ∧
    (GetSetBitsPerWord (GetSetBitsPerWord closedHandle [.int32 256]).self []).completion
      = .returned (.uint 0) ∧
    (GetSetDelay closedHandle [.int32 65536]).completion = .returned .this ∧
    (GetSetDelay (GetSetDelay closedHandle [.int32 65536]).self []).completion
      = .returned (.uint 0) := by
  decide

/-- C3 (amended): for each of `maxSpeed`, `size`, `delay`, `wrPin`, `rdyPin` on a closed
    handle and every integer `v`: if `v <= 0` the setter fails with the out-of-range
    ArgumentError and leaves the handle unchanged; if `v > 0` and `v` fits the member the
    setter stores to (8 bits for `size`, 16 for `delay`, 32 for the others), the setter
    returns the handle and the next call without arguments returns exactly `v`. -/
theorem positive_setter_round_trip (F : PositiveField) (self : Spi) (v : Int)
    (rest : List JSValue) (hclosed : self.m_fd = -1) :
    (v ≤ 0 → F.method self (.int32 v :: rest) = ⟨self, .threw .argumentOutOfRange, []⟩) ∧
    Exn.kind .argumentOutOfRange = .ArgumentError ∧
    (0 < v → v < 2 ^ F.bits →
      (F.method self (.int32 v :: rest)).completion = .returned .this ∧
      (F.method (F.method self (.int32 v :: rest)).self []).completion
        = .returned (.uint v.toNat)) := by
  refine ⟨?_, rfl, ?_⟩
  · intro hv
    cases F <;>
      simp [PositiveField.method, GetSetMaxSpeed, GetSetBitsPerWord, GetSetDelay, GetSetWrPin,
        GetSetRdyPin, get_if_no_args, get_argument_greater_than, get_argument_int, hv]
  · intro h0 hlt
    have hnle : ¬ v ≤ 0 := by omega
    cases F <;>
      simp [PositiveField.method, PositiveField.bits, GetSetMaxSpeed, GetSetBitsPerWord,
        GetSetDelay, GetSetWrPin, GetSetRdyPin, get_if_no_args, get_argument_greater_than,
        get_argument_int, hnle, hclosed] <;>
      exact toUnsigned_of_lt _ v h0 hlt

/-- C3 (amended), at `size(16)` on a fresh handle. -/
theorem positive_setter_round_trip_witness :
    closedHandle.m_fd = -1 ∧
    (GetSetBitsPerWord closedHandle [.int32 0] = ⟨closedHandle, .threw .argumentOutOfRange, []⟩) ∧
    (GetSetBitsPerWord closedHandle [.int32 16]).completion = .returned .this ∧
    (GetSetBitsPerWord (GetSetBitsPerWord closedHandle [.int32 16]).self []).completion
      = .returned (.uint 16) :=
  ⟨by decide,
   (positive_setter_round_trip .size closedHandle 0 [] (by decide)).1 (by decide),
   ((positive_setter_round_trip .size closedHandle 16 [] (by decide)).2.2
      (by decide) (by decide)).1,
   ((positive_setter_round_trip .size closedHandle 16 [] (by decide)).2.2
      (by decide) (by decide)).2⟩

/-- The guarded setters (`mode`, `chipSelect`, `size`, `maxSpeed`, `delay`, `wrPin`,
    `rdyPin`) reject an argument they would accept on a closed handle with "Cannot be
    called once device is opened" when the handle is open, and change nothing. -/
theorem guarded_setters_reject_while_open (self : Spi) (v : Int) (rest : List JSValue)
    (hopen : self.m_fd ≠ -1) :
    GetSetMode self (.int32 v :: rest) = ⟨self, .threw .cannotBeCalledOnceOpened, []⟩ ∧
    GetSetChipSelect self (.int32 v :: rest) = ⟨self, .threw .cannotBeCalledOnceOpened, []⟩ ∧
    (0 < v → ∀ F : PositiveField,
      F.method self (.int32 v :: rest) = ⟨self, .threw .cannotBeCalledOnceOpened, []⟩) ∧
    Exn.kind .cannotBeCalledOnceOpened = .StateError := by
  refine ⟨?_, ?_, ?_, rfl⟩
  · simp [GetSetMode, get_if_no_args, get_argument_int, hopen]
  · simp [GetSetChipSelect, get_if_no_args, get_argument_int, hopen]
  · intro h0 F
    have hnle : ¬ v ≤ 0 := by omega
    cases F <;>
      simp [PositiveField.method, GetSetMaxSpeed, GetSetBitsPerWord, GetSetDelay, GetSetWrPin,
        GetSetRdyPin, get_if_no_args, get_argument_greater_than, get_argument_int, hnle, hopen]

/-- C4 (the code departs from the claim): `halfDuplex`, `loopback` and `bitOrder` never
    look at the descriptor.  Whatever the handle, open or closed, a boolean argument is
    accepted, the handle is returned and the bit of `m_mode` is set or cleared; on the
    open handle `openHandle`, `halfDuplex(true)` changes `m_mode` from 0 to `SPI_3WIRE`. -/
theorem mode_toggles_ignore_open_state :
    (∀ (self : Spi) (b : Bool) (rest : List JSValue),
      GetSet3Wire self (.boolean b :: rest)
        = ⟨{ self with m_mode := if b then self.m_mode ||| SPI_3WIRE
                                 else self.m_mode &&& not32 SPI_3WIRE }, .returned .this, []⟩ ∧
      GetSetLoop self (.boolean b :: rest)
        = ⟨{ self with m_mode := if b then self.m_mode ||| SPI_LOOP
                                 else self.m_mode &&& not32 SPI_LOOP }, .returned .this, []⟩ ∧
      GetSetBitOrder self (.boolean b :: rest)
        = ⟨{ self with m_mode := if b then self.m_mode ||| SPI_LSB_FIRST
                                 else self.m_mode &&& not32 SPI_LSB_FIRST },
            .returned .this, []⟩) ∧
    openHandle.m_fd ≠ -1 ∧
    GetSet3Wire openHandle [.boolean true]
      = ⟨{ openHandle with m_mode := SPI_3WIRE }, .returned .this, []⟩ ∧
    GetSetLoop openHandle [.boolean true]
      = ⟨{ openHandle with m_mode := SPI_LOOP }, .returned .this, []⟩ ∧
    GetSetBitOrder openHandle [.boolean true]
      = ⟨{ openHandle with m_mode := SPI_LSB_FIRST }, .returned .this, []⟩ := by
  refine ⟨?_, by decide, by decide, by decide, by decide⟩
  intro self b rest
  cases b <;>
    simp [GetSet3Wire, GetSetLoop, GetSetBitOrder, get_set_mode_toggle, get_if_no_args,
      get_argument_bool]

/-- C5 (the code departs from the claim): when the device opens as descriptor `fd` and one
    of the three configuration ioctls fails, `Open` throws "Unable to set ..." and returns
    with `m_fd = fd`: the handle counts as open, so a setter and a second `open` are then
    rejected with "Cannot be called once device is opened". -/
theorem Open_failed_ioctl_leaves_descriptor (k : Kernel) (gpio : Gpio) (self : Spi)
    (path : JSValue) (rest : List JSValue) (fd : Nat)
    (hclosed : self.m_fd = -1) (hdev : k.device = some fd)
    (hfail : k.wr_mode = -1 ∨ k.wr_bits_per_word = -1 ∨ k.wr_max_speed_hz = -1) :
    (∃ ctrl, (Open k gpio self (path :: rest)).1.completion = .threw (.unableToSet ctrl)) ∧
    Exn.kind (.unableToSet .SPI_IOC_WR_MODE) = .IOError ∧
    (Open k gpio self (path :: rest)).1.self.m_fd = (fd : Int) ∧
    (Open k gpio self (path :: rest)).1.self.m_fd ≠ -1 ∧
    (∀ v rest2, (GetSetMode (Open k gpio self (path :: rest)).1.self (.int32 v :: rest2)).completion
        = .threw .cannotBeCalledOnceOpened) ∧
    (∀ k2 gpio2 path2 rest2,
      (Open k2 gpio2 (Open k gpio self (path :: rest)).1.self (path2 :: rest2)).1.completion
        = .threw .cannotBeCalledOnceOpened) := by
  have hfd : ¬ ((fd : Int) < 0) := by omega
  have hne : ¬ ((fd : Int) = -1) := by omega
  have hself : (Open k gpio self (path :: rest)).1.self = { self with m_fd := (fd : Int) } ∧
      ∃ ctrl, (Open k gpio self (path :: rest)).1.completion = .threw (.unableToSet ctrl) := by
    by_cases h1 : k.wr_mode = -1
    · simp [Open, require_arguments, hclosed, hdev, fdOf, hfd, h1]
    · by_cases h2 : k.wr_bits_per_word = -1
      · simp [Open, require_arguments, hclosed, hdev, fdOf, hfd, h1, h2]
      · have h3 : k.wr_max_speed_hz = -1 := by tauto
        simp [Open, require_arguments, hclosed, hdev, fdOf, hfd, h1, h2, h3]
  obtain ⟨hs, hc⟩ := hself
  refine ⟨hc, rfl, ?_, ?_, ?_, ?_⟩
  · rw [hs]
  · rw [hs]; exact hne
  · intro v rest2
    rw [hs]
    simp [GetSetMode, get_if_no_args, get_argument_int, hne]
  · intro k2 gpio2 path2 rest2
    rw [hs]
    simp [Open, require_arguments, hne]

/-- C5, at a kernel that opens the device as descriptor 3 and rejects `SPI_IOC_WR_MODE`. -/
theorem Open_failed_ioctl_leaves_descriptor_witness :
    closedHandle.m_fd = -1 ∧ modeFailsKernel.device = some 3 ∧ modeFailsKernel.wr_mode = -1 ∧
    (Open modeFailsKernel zeroGpio closedHandle [.string "/dev/spidev0.0"]).1.self.m_fd = 3 ∧
    (Open noDeviceKernel zeroGpio closedHandle [.string "/dev/spidev0.0"]).1.self.m_fd = -1 :=
  ⟨by decide, by decide, by decide,
   (Open_failed_ioctl_leaves_descriptor modeFailsKernel zeroGpio closedHandle
      (.string "/dev/spidev0.0") [] 3 (by decide) (by decide) (Or.inl (by decide))).2.2.1,
   by decide⟩

/-- C6: on an open handle, `transfer(null, null)` fails with "Both buffers cannot be null"
    and `transfer(write, read)` with two buffers of unequal lengths, both greater than
    zero, fails with "Read and write buffers MUST be the same length" (both
    ProtocolErrors); in either case no GPIO register is written, no transaction is issued
    and the handle is unchanged, so still open. -/
theorem Transfer_protocol_error (w : Nat) (bus : Bus) (fuel : Nat) (self : Spi)
    (hopen : self.m_fd ≠ -1) :
    (∀ rest, Transfer w bus fuel self (.null :: .null :: rest)
        = ⟨self, .threw .bothBuffersNull, []⟩) ∧
    (∀ wd wl rd rl rest, 0 < wl → 0 < rl → wl ≠ rl →
      Transfer w bus fuel self (.buffer wd wl :: .buffer rd rl :: rest)
        = ⟨self, .threw .buffersSameLength, []⟩) ∧
    Exn.kind .bothBuffersNull = .ProtocolError ∧
    Exn.kind .buffersSameLength = .ProtocolError := by
  refine ⟨?_, ?_, rfl, rfl⟩
  · intro rest
    simp [Transfer, hopen, require_arguments, JSValue.IsNull]
  · intro wd wl rd rl rest h1 h2 h3
    simp [Transfer, hopen, require_arguments, JSValue.IsNull, buffer_length, h1, h2, h3]

/-- C6, at `transfer(null, null)` and at `transfer(bufOfLen3, bufOfLen5)`. -/
theorem Transfer_protocol_error_witness :
    openHandle.m_fd ≠ -1 ∧
    Transfer 64 readyBus 8 openHandle [.null, .null]
      = ⟨openHandle, .threw .bothBuffersNull, []⟩ ∧
    Transfer 64 readyBus 8 openHandle [.buffer 4096 3, .buffer 8192 5]
      = ⟨openHandle, .threw .buffersSameLength, []⟩ :=
  ⟨by decide,
   (Transfer_protocol_error 64 readyBus 8 openHandle (by decide)).1 [],
   (Transfer_protocol_error 64 readyBus 8 openHandle (by decide)).2.1 4096 3 8192 5 []
      (by decide) (by decide) (by decide)⟩

/-- C7: on a closed handle `transfer` fails with "Device not opened" whatever the
    arguments, their number included; it touches no GPIO register, issues no transaction
    and leaves the handle and its configuration as they were. -/
theorem Transfer_closed (w : Nat) (bus : Bus) (fuel : Nat) (self : Spi) (args : List JSValue)
    (hclosed : self.m_fd = -1) :
    Transfer w bus fuel self args = ⟨self, .threw .deviceNotOpened, []⟩ := by
  simp [Transfer, hclosed]

/-- C7, at a fresh handle and a two-byte write buffer. -/
theorem Transfer_closed_witness :
    closedHandle.m_fd = -1 ∧
    Transfer 64 readyBus 8 closedHandle [.buffer 4096 2, .null]
      = ⟨closedHandle, .threw .deviceNotOpened, []⟩ :=
  ⟨by decide, Transfer_closed 64 readyBus 8 closedHandle [.buffer 4096 2, .null] (by decide)⟩

/-- C8: on an open handle, for a call `transfer(a0, a1, ...)` that passes validation with
    effective length `n >= 1`, and a ready pin that answers every busy-wait within the
    fuel: the call completes; the results of its `n` transactions are the answers
    `r_1 .. r_n` of the bus in order; it throws "Unable to send SPI message" (an IOError)
    exactly when `r_n = -1` and returns `r_n` otherwise; and a bus that differs only in
    `r_1 .. r_(n-1)` gives the same completion. -/
theorem Transfer_status_is_last_return (w : Nat) (bus : Bus) (fuel : Nat) (self : Spi)
    (a0 a1 : JSValue) (rest : List JSValue)
    (hopen : self.m_fd ≠ -1)
    (hnull : ¬ (a0 = .null ∧ a1 = .null))
    (hvalid : ¬ (buffer_length w a0 > 0 ∧ buffer_length w a1 > 0 ∧
      buffer_length w a0 ≠ buffer_length w a1))
    (hn : 1 ≤ MAX (buffer_length w a0) (buffer_length w a1))
    (hready : ReadyWithin fuel self bus) :
    (Transfer w bus fuel self (a0 :: a1 :: rest)).completion
      = (if bus.message (MAX (buffer_length w a0) (buffer_length w a1) - 1) = -1
         then .threw .unableToSendMessage
         else .returned
           (.int (bus.message (MAX (buffer_length w a0) (buffer_length w a1) - 1)))) ∧
    Exn.kind .unableToSendMessage = .IOError ∧
    (transactions (Transfer w bus fuel self (a0 :: a1 :: rest)).trace).map Prod.snd
      = (List.range (MAX (buffer_length w a0) (buffer_length w a1))).map bus.message ∧
    (∀ bus2 : Bus, bus2.level = bus.level →
      bus2.message (MAX (buffer_length w a0) (buffer_length w a1) - 1)
        = bus.message (MAX (buffer_length w a0) (buffer_length w a1) - 1) →
      (Transfer w bus2 fuel self (a0 :: a1 :: rest)).completion
        = (Transfer w bus fuel self (a0 :: a1 :: rest)).completion) := by
  have hT := Transfer_validated w fuel self a0 a1 rest hopen hnull hvalid
  refine ⟨?_, rfl, ?_, ?_⟩
  · rw [hT]
    exact (full_duplex_transfer_completion bus fuel self _ _ _ _ _ _ hready hn).1
  · rw [hT, full_duplex_transfer_transactions bus fuel self _ _ _ _ _ _ hready]
    simp [List.map_map, Function.comp]
  · intro bus2 hlev hlast
    have hready2 : ReadyWithin fuel self bus2 := by
      intro k
      rw [hlev]
      exact hready k
    rw [hT, hT, (full_duplex_transfer_completion bus fuel self _ _ _ _ _ _ hready hn).1,
      (full_duplex_transfer_completion bus2 fuel self _ _ _ _ _ _ hready2 hn).1, hlast]

/-- C8, at `transfer(write, read)` with two buffers of length 2 on a bus whose first
    transaction fails (-1) and whose second returns 1: the call returns 1. -/
theorem Transfer_status_is_last_return_witness :
    openHandle.m_fd ≠ -1 ∧
    ReadyWithin 8 openHandle firstFailsBus ∧
    (transactions
      (Transfer 64 firstFailsBus 8 openHandle [.buffer 4096 2, .buffer 8192 2]).trace).map
        Prod.snd = [-1, 1] ∧
    (Transfer 64 firstFailsBus 8 openHandle [.buffer 4096 2, .buffer 8192 2]).completion
      = .returned (.int 1) :=
  have hready : ReadyWithin 8 openHandle firstFailsBus :=
    fun _ => ⟨0, by decide, (by decide : busy false 27 (bit32 27) = false)⟩
  ⟨by decide, hready,
   (Transfer_status_is_last_return 64 firstFailsBus 8 openHandle (.buffer 4096 2)
      (.buffer 8192 2) [] (by decide) (by decide) (by decide) (by decide) hready).2.2.1,
   (Transfer_status_is_last_return 64 firstFailsBus 8 openHandle (.buffer 4096 2)
      (.buffer 8192 2) [] (by decide) (by decide) (by decide) (by decide) hready).1⟩

/-- The `case SPI_CS_HIGH` branch of `GetSetChipSelect` on the bits of `m_mode`. -/
theorem cs_high_branch (m : Nat) :
    ((m ||| SPI_CS_HIGH) &&& not32 SPI_NO_CS) &&& (SPI_CS_HIGH ||| SPI_NO_CS) = SPI_CS_HIGH ∧
    ((m ||| SPI_CS_HIGH) &&& not32 SPI_NO_CS) &&& SPI_NO_CS = 0 ∧
    ((m ||| SPI_CS_HIGH) &&& not32 SPI_NO_CS) &&& not32 (SPI_CS_HIGH ||| SPI_NO_CS)
      = m &&& not32 (SPI_CS_HIGH ||| SPI_NO_CS) := by
  have h4 : SPI_CS_HIGH = 2 ^ 2 := rfl
  have h64 : SPI_NO_CS = 2 ^ 6 := rfl
  refine ⟨?_, ?_, ?_⟩ <;>
  · apply Nat.eq_of_testBit_eq
    intro i
    simp only [not32, h4, h64, Nat.testBit_and, Nat.testBit_or, Nat.testBit_xor,
      Nat.testBit_two_pow, Nat.testBit_two_pow_sub_one, Nat.zero_testBit]
    by_cases h2 : 2 = i
    · subst h2; simp
    · by_cases h6 : 6 = i
      · subst h6; simp
      · simp [h2, h6]

/-- The `case SPI_NO_CS` branch of `GetSetChipSelect` on the bits of `m_mode`. -/
theorem no_cs_branch (m : Nat) :
    ((m ||| SPI_NO_CS) &&& not32 SPI_CS_HIGH) &&& (SPI_CS_HIGH ||| SPI_NO_CS) = SPI_NO_CS ∧
    ((m ||| SPI_NO_CS) &&& not32 SPI_CS_HIGH) &&& SPI_CS_HIGH = 0 ∧
    ((m ||| SPI_NO_CS) &&& not32 SPI_CS_HIGH) &&& not32 (SPI_CS_HIGH ||| SPI_NO_CS)
      = m &&& not32 (SPI_CS_HIGH ||| SPI_NO_CS) := by
  have h4 : SPI_CS_HIGH = 2 ^ 2 := rfl
  have h64 : SPI_NO_CS = 2 ^ 6 := rfl
  refine ⟨?_, ?_, ?_⟩ <;>
  · apply Nat.eq_of_testBit_eq
    intro i
    simp only [not32, h4, h64, Nat.testBit_and, Nat.testBit_or, Nat.testBit_xor,
      Nat.testBit_two_pow, Nat.testBit_two_pow_sub_one, Nat.zero_testBit]
    by_cases h2 : 2 = i
    · subst h2; simp
    · by_cases h6 : 6 = i
      · subst h6; simp
      · simp [h2, h6]

/-- The `default` branch of `GetSetChipSelect` on the bits of `m_mode`. -/
theorem cs_low_branch (m : Nat) :
    (m &&& not32 (SPI_NO_CS ||| SPI_CS_HIGH)) &&& (SPI_CS_HIGH ||| SPI_NO_CS) = 0 ∧
    (m &&& not32 (SPI_NO_CS ||| SPI_CS_HIGH)) &&& SPI_CS_HIGH = 0 ∧
    (m &&& not32 (SPI_NO_CS ||| SPI_CS_HIGH)) &&& not32 (SPI_CS_HIGH ||| SPI_NO_CS)
      = m &&& not32 (SPI_CS_HIGH ||| SPI_NO_CS) := by
  have h4 : SPI_CS_HIGH = 2 ^ 2 := rfl
  have h64 : SPI_NO_CS = 2 ^ 6 := rfl
  refine ⟨?_, ?_, ?_⟩ <;>
  · apply Nat.eq_of_testBit_eq
    intro i
    simp only [not32, h4, h64, Nat.testBit_and, Nat.testBit_or, Nat.testBit_xor,
      Nat.testBit_two_pow, Nat.testBit_two_pow_sub_one, Nat.zero_testBit]
    by_cases h2 : 2 = i
    · subst h2; simp
    · by_cases h6 : 6 = i
      · subst h6; simp
      · simp [h2, h6]

/-- Two modes that agree under the mask `~(SPI_CS_HIGH|SPI_NO_CS)` agree on every bit
    below 32 other than bits 2 and 6. -/
theorem other_bits_kept (m1 m : Nat)
    (h : m1 &&& not32 (SPI_CS_HIGH ||| SPI_NO_CS) = m &&& not32 (SPI_CS_HIGH ||| SPI_NO_CS))
    (i : Nat) (hi : i < 32) (h2 : i ≠ 2) (h6 : i ≠ 6) : m1.testBit i = m.testBit i := by
  have h4 : SPI_CS_HIGH = 2 ^ 2 := rfl
  have h64 : SPI_NO_CS = 2 ^ 6 := rfl
  have hb := congrArg (fun x => Nat.testBit x i) h
  have h2a : ¬ (2 = i) := fun e => h2 e.symm
  have h6a : ¬ (6 = i) := fun e => h6 e.symm
  simp only [not32, h4, h64, Nat.testBit_and, Nat.testBit_or, Nat.testBit_xor,
    Nat.testBit_two_pow, Nat.testBit_two_pow_sub_one] at hb
  simpa [hi, h2a, h6a] using hb

/-- C9: on a closed handle with any `m_mode`, `chipSelect(v)` with an integer `v` returns
    the handle and changes only `m_mode`; the following `chipSelect()` returns
    `SPI_CS_HIGH` if `v = SPI_CS_HIGH`, `SPI_NO_CS` if `v = SPI_NO_CS` and 0 otherwise, so
    the two bits are never both set; and `m_mode` keeps every bit outside
    `SPI_CS_HIGH | SPI_NO_CS` (base mode, 3-wire, loopback, bit order). -/
theorem chipSelect_tri_state (self : Spi) (v : Int) (rest : List JSValue)
    (hclosed : self.m_fd = -1) :
    (GetSetChipSelect self (.int32 v :: rest)).completion = .returned .this ∧
    (GetSetChipSelect self (.int32 v :: rest)).self
      = { self with m_mode := (GetSetChipSelect self (.int32 v :: rest)).self.m_mode } ∧
    (GetSetChipSelect (GetSetChipSelect self (.int32 v :: rest)).self []).completion
      = .returned (.uint (if v = SPI_CS_HIGH then SPI_CS_HIGH
                          else if v = SPI_NO_CS then SPI_NO_CS else 0)) ∧
    ¬ ((GetSetChipSelect self (.int32 v :: rest)).self.m_mode &&& SPI_CS_HIGH ≠ 0 ∧
       (GetSetChipSelect self (.int32 v :: rest)).self.m_mode &&& SPI_NO_CS ≠ 0) ∧
    (GetSetChipSelect self (.int32 v :: rest)).self.m_mode
        &&& not32 (SPI_CS_HIGH ||| SPI_NO_CS)
      = self.m_mode &&& not32 (SPI_CS_HIGH ||| SPI_NO_CS) ∧
    (∀ i, i < 32 → i ≠ 2 → i ≠ 6 →
      (GetSetChipSelect self (.int32 v :: rest)).self.m_mode.testBit i
        = self.m_mode.testBit i) := by
  have key : (GetSetChipSelect self (.int32 v :: rest)).completion = .returned .this ∧
      (GetSetChipSelect self (.int32 v :: rest)).self
        = { self with m_mode := (GetSetChipSelect self (.int32 v :: rest)).self.m_mode } ∧
      (GetSetChipSelect (GetSetChipSelect self (.int32 v :: rest)).self []).completion
        = .returned (.uint (if v = SPI_CS_HIGH then SPI_CS_HIGH
                            else if v = SPI_NO_CS then SPI_NO_CS else 0)) ∧
      ¬ ((GetSetChipSelect self (.int32 v :: rest)).self.m_mode &&& SPI_CS_HIGH ≠ 0 ∧
         (GetSetChipSelect self (.int32 v :: rest)).self.m_mode &&& SPI_NO_CS ≠ 0) ∧
      (GetSetChipSelect self (.int32 v :: rest)).self.m_mode
          &&& not32 (SPI_CS_HIGH ||| SPI_NO_CS)
        = self.m_mode &&& not32 (SPI_CS_HIGH ||| SPI_NO_CS) := by
    by_cases hh : v = SPI_CS_HIGH
    · obtain ⟨a, b, c⟩ := cs_high_branch self.m_mode
      simp [GetSetChipSelect, get_if_no_args, get_argument_int, hclosed, hh, a, b, c]
    · by_cases hn : v = SPI_NO_CS
      · obtain ⟨a, b, c⟩ := no_cs_branch self.m_mode
        have hne : ¬ ((SPI_NO_CS : Int) = SPI_CS_HIGH) := by decide
        simp [GetSetChipSelect, get_if_no_args, get_argument_int, hclosed, hn, hne, a, b, c]
      · obtain ⟨a, b, c⟩ := cs_low_branch self.m_mode
        simp [GetSetChipSelect, get_if_no_args, get_argument_int, hclosed, hh, hn, a, b, c]
  obtain ⟨k1, k2, k3, k4, k5⟩ := key
  exact ⟨k1, k2, k3, k4, k5, fun i hi h2 h6 => other_bits_kept _ _ k5 i hi h2 h6⟩

/-- C9, at `chipSelect(SPI_CS_HIGH)` on a closed handle whose mode already has
    `SPI_NO_CS`, `SPI_3WIRE` and mode 3 set (0x53): the mode becomes 0x17. -/
theorem chipSelect_tri_state_witness :
    closedHandle.m_fd = -1 ∧
    (GetSetChipSelect (GetSetChipSelect { closedHandle with m_mode := 0x53 }
        [.int32 4]).self []).completion = .returned (.uint 4) ∧
    (GetSetChipSelect { closedHandle with m_mode := 0x53 } [.int32 4]).self.m_mode = 0x17 :=
  ⟨by decide,
   (chipSelect_tri_state { closedHandle with m_mode := 0x53 } 4 [] (by decide)).2.2.1,
   by decide⟩

/-- C10: `close()` on a closed handle returns the handle, closes no descriptor and
    changes nothing; on an open handle it closes the descriptor once, sets `m_fd` to -1
    and leaves every other field as it was; afterwards the handle is closed, and a second
    `close()` returns the handle without any effect. -/
theorem Close_spec (self : Spi) (args : List JSValue) :
    (self.m_fd = -1 → Close self args = ⟨self, .returned .this, []⟩) ∧
    (self.m_fd ≠ -1 → Close self args
        = ⟨{ self with m_fd := -1 }, .returned .this, [Event.close self.m_fd]⟩) ∧
    (Close self args).self.m_fd = -1 ∧
    (∀ args2, Close (Close self args).self args2
        = ⟨(Close self args).self, .returned .this, []⟩) := by
  by_cases h : self.m_fd = -1 <;> simp [Close, h]

/-- C10, at a fresh handle and at an open handle on descriptor 3. -/
theorem Close_spec_witness :
    Close closedHandle [] = ⟨closedHandle, .returned .this, []⟩ ∧
    Close openHandle []
      = ⟨{ openHandle with m_fd := -1 }, .returned .this, [Event.close 3]⟩ :=
  ⟨(Close_spec closedHandle []).1 (by decide), (Close_spec openHandle []).2.1 (by decide)⟩

/-- The guarded setters, at `mode(SPI_MODE_1)` and `size(16)` on the open handle
    `openHandle`. -/
theorem guarded_setters_reject_while_open_witness :
    openHandle.m_fd ≠ -1 ∧
    GetSetMode openHandle [.int32 1] = ⟨openHandle, .threw .cannotBeCalledOnceOpened, []⟩ ∧
    GetSetBitsPerWord openHandle [.int32 16]
      = ⟨openHandle, .threw .cannotBeCalledOnceOpened, []⟩ :=
  ⟨by decide,
   (guarded_setters_reject_while_open openHandle 1 [] (by decide)).1,
   (guarded_setters_reject_while_open openHandle 16 [] (by decide)).2.2.1 (by decide) .size⟩

/-- What the byte loop sends: on an open handle, for a call `transfer(a0, a1, ...)` that
    passes validation, with a ready pin that answers every busy-wait within the fuel, the
    call issues exactly `n = MAX(write_length, read_length)` transactions; the `i`-th has
    `tx_buf = write + i` (modulo 2^64; `write` is 0 for an absent buffer), `rx_buf = read`
    for every `i`, `len = 1`, the handle's `m_max_speed`, `m_delay` and `m_bits_per_word`,
    and zero in the remaining members. -/
theorem Transfer_transactions (w : Nat) (bus : Bus) (fuel : Nat) (self : Spi)
    (a0 a1 : JSValue) (rest : List JSValue)
    (hopen : self.m_fd ≠ -1)
    (hnull : ¬ (a0 = .null ∧ a1 = .null))
    (hvalid : ¬ (buffer_length w a0 > 0 ∧ buffer_length w a1 > 0 ∧
      buffer_length w a0 ≠ buffer_length w a1))
    (hready : ReadyWithin fuel self bus) :
    (transactions (Transfer w bus fuel self (a0 :: a1 :: rest)).trace).map Prod.fst
      = (List.range (MAX (buffer_length w a0) (buffer_length w a1))).map (fun i =>
          { tx_buf := (buffer_data a0 + i) % 2 ^ 64, rx_buf := buffer_data a1 % 2 ^ 64,
            len := 1, speed_hz := self.m_max_speed, delay_usecs := self.m_delay,
            bits_per_word := self.m_bits_per_word,
            cs_change := 0, tx_nbits := 0, rx_nbits := 0, pad := 0 }) := by
  rw [Transfer_validated w fuel self a0 a1 rest hopen hnull hvalid,
    full_duplex_transfer_transactions bus fuel self _ _ _ _ _ _ hready]
  simp [List.map_map, Function.comp]

/-- The transactions of `transfer(write, read)` with two buffers of length 2 at addresses
    4096 and 8192 on `readyBus`. -/
theorem Transfer_transactions_witness :
    openHandle.m_fd ≠ -1 ∧ ReadyWithin 8 openHandle readyBus ∧
    (transactions
      (Transfer 64 readyBus 8 openHandle [.buffer 4096 2, .buffer 8192 2]).trace).map Prod.fst
      = (List.range 2).map (fun i =>
          { tx_buf := (4096 + i) % 2 ^ 64, rx_buf := 8192 % 2 ^ 64,
            len := 1, speed_hz := 1000000, delay_usecs := 0, bits_per_word := 8,
            cs_change := 0, tx_nbits := 0, rx_nbits := 0, pad := 0 }) :=
  have hready : ReadyWithin 8 openHandle readyBus :=
    fun _ => ⟨0, by decide, (by decide : busy false 27 (bit32 27) = false)⟩
  ⟨by decide, hready,
   Transfer_transactions 64 readyBus 8 openHandle (.buffer 4096 2) (.buffer 8192 2) []
     (by decide) (by decide) (by decide) hready⟩

/-! ## The order of events in a transfer -/

/-- For a pin below 32 the mask `1 << g` is the single bit `g`. -/
theorem bit32_of_lt (g : Nat) (h : g < 32) : bit32 g = 2 ^ g := by
  unfold bit32
  rw [Nat.one_shiftLeft]
  exact Nat.mod_eq_of_lt (Nat.pow_lt_pow_right (by norm_num) h)

/-- Masking with a single bit gives zero exactly when that bit is clear. -/
theorem and_two_pow_eq_zero (x p : Nat) : x &&& 2 ^ p = 0 ↔ x.testBit p = false := by
  constructor
  · intro h
    have := congrArg (fun y => Nat.testBit y p) h
    simpa [Nat.testBit_and, Nat.testBit_two_pow_self] using this
  · intro h
    apply Nat.eq_of_testBit_eq
    intro i
    simp only [Nat.testBit_and, Nat.testBit_two_pow, Nat.zero_testBit]
    by_cases hi : p = i
    · subst hi; simp [h]
    · simp [hi]

/-- For a ready pin below 32 the loop condition of the busy-wait holds exactly when the
    sampled level is not at the ready polarity. -/
theorem busy_eq_not_ready (self : Spi) (lev : Nat) (hpin : self.m_rdy_pin < 32) :
    busy self.m_invert_rdy self.m_rdy_pin lev = !readyLevel self lev := by
  unfold busy readyLevel GET_GPIO
  rw [bit32_of_lt _ hpin]
  cases hb : lev.testBit self.m_rdy_pin <;> cases self.m_invert_rdy <;>
    simp [and_two_pow_eq_zero, hb]

/-- A busy-wait either runs out of fuel after samples none of which is ready, or ends
    at its first ready sample. -/
theorem poll_wait (self : Spi) (bus : Bus) (hpin : self.m_rdy_pin < 32) (fuel k : Nat) :
    ((poll self.m_invert_rdy self.m_rdy_pin bus fuel k).2 = none ∧
      BusyWait self (poll self.m_invert_rdy self.m_rdy_pin bus fuel k).1) ∨
    ((∃ k1, (poll self.m_invert_rdy self.m_rdy_pin bus fuel k).2 = some k1) ∧
      ReadyWait self (poll self.m_invert_rdy self.m_rdy_pin bus fuel k).1) := by
  induction fuel generalizing k with
  | zero => left; exact ⟨rfl, [], rfl, by simp⟩
  | succ n ih =>
    unfold poll
    by_cases hb : busy self.m_invert_rdy self.m_rdy_pin (bus.level k) = true
    · have hr : readyLevel self (bus.level k) = false := by
        rw [busy_eq_not_ready self _ hpin] at hb
        simpa using hb
      simp only [hb, if_true]
      rcases ih (k + 1) with ⟨h1, vs, h2, h3⟩ | ⟨h1, vs, v, h2, h3, h4⟩
      · left
        refine ⟨h1, bus.level k :: vs, by simp [h2], ?_⟩
        intro x hx
        rcases List.mem_cons.mp hx with rfl | hx
        · exact hr
        · exact h3 x hx
      · right
        refine ⟨h1, bus.level k :: vs, v, by simp [h2], ?_, h4⟩
        intro x hx
        rcases List.mem_cons.mp hx with rfl | hx
        · exact hr
        · exact h3 x hx
    · have hr : readyLevel self (bus.level k) = true := by
        rw [busy_eq_not_ready self _ hpin] at hb
        simpa using hb
      right
      simp only [hb]
      exact ⟨⟨k + 1, rfl⟩, [], bus.level k, by simp, by simp, hr⟩

/-- A finished wait holds no transaction. -/
theorem readyWait_noTransaction (self : Spi) (w : List Event) (h : ReadyWait self w) :
    NoTransaction w := by
  obtain ⟨vs, v, rfl, -, -⟩ := h
  intro e he
  simp only [List.mem_append, List.mem_map, List.mem_singleton] at he
  rcases he with ⟨x, -, rfl⟩ | rfl <;> rfl

/-- An unfinished wait holds no transaction. -/
theorem busyWait_noTransaction (self : Spi) (w : List Event) (h : BusyWait self w) :
    NoTransaction w := by
  obtain ⟨vs, rfl, -⟩ := h
  intro e he
  simp only [List.mem_map] at he
  obtain ⟨x, -, rfl⟩ := he
  rfl

/-- The strobe pulse and the delay hold no transaction. -/
theorem strobe_delay_noTransaction (self : Spi) :
    NoTransaction (strobe self ++
      [Event.delayMicrosecondsHard (if self.m_invert_rdy then 10 else 1)]) := by
  intro e he
  unfold strobe at he
  split at he <;> simp at he <;> rcases he with rfl | rfl | rfl <;> rfl

/-- Two lists without a transaction, appended, hold no transaction. -/
theorem noTransaction_append (a b : List Event) (ha : NoTransaction a) (hb : NoTransaction b) :
    NoTransaction (a ++ b) := by
  intro e he
  rcases List.mem_append.mp he with h | h
  · exact ha e h
  · exact hb e h

/-- A list without a transaction does not split at a transaction. -/
theorem noTransaction_split (l a b : List Event) (m : Event) (hl : NoTransaction l)
    (h : l = a ++ m :: b) (hm : m.isTransaction = true) : False := by
  have := hl m (by rw [h]; simp)
  rw [hm] at this
  exact Bool.noConfusion this

/-- The split of a list at its first transaction is unique. -/
theorem split_unique (a a1 b b1 : List Event) (m m1 : Event)
    (ha : NoTransaction a) (ha1 : NoTransaction a1)
    (hm : m.isTransaction = true) (hm1 : m1.isTransaction = true)
    (h : a ++ m :: b = a1 ++ m1 :: b1) : a = a1 ∧ m = m1 ∧ b = b1 := by
  induction a generalizing a1 with
  | nil =>
    cases a1 with
    | nil => simpa using h
    | cons y ys =>
      simp only [List.nil_append, List.cons_append, List.cons.injEq] at h
      have := ha1 y (by simp)
      rw [← h.1, hm] at this
      exact absurd this (by simp)
  | cons x xs ih =>
    cases a1 with
    | nil =>
      simp only [List.nil_append, List.cons_append, List.cons.injEq] at h
      have := ha x (by simp)
      rw [h.1, hm1] at this
      exact absurd this (by simp)
    | cons y ys =>
      simp only [List.cons_append, List.cons.injEq] at h
      obtain ⟨h1, h2, h3⟩ := ih ys (fun e he => ha e (List.mem_cons_of_mem _ he))
        (fun e he => ha1 e (List.mem_cons_of_mem _ he)) h.2
      exact ⟨by rw [h.1, h1], h2, h3⟩

/-- A list holds no transaction or splits at its first one. -/
theorem first_transaction (l : List Event) :
    NoTransaction l ∨ ∃ p x q, l = p ++ x :: q ∧ NoTransaction p ∧ x.isTransaction = true := by
  induction l with
  | nil => left; intro e he; cases he
  | cons y ys ih =>
    by_cases hy : y.isTransaction = true
    · right; exact ⟨[], y, ys, rfl, (by intro e he; cases he), hy⟩
    · rcases ih with h | ⟨p, x, q, h1, h2, h3⟩
      · left
        intro e he
        rcases List.mem_cons.mp he with rfl | he
        · simpa using hy
        · exact h e he
      · right
        refine ⟨y :: p, x, q, by rw [h1]; rfl, ?_, h3⟩
        intro e he
        rcases List.mem_cons.mp he with rfl | he
        · simpa using hy
        · exact h2 e he

/-- The events of the byte loop are none or start with a transaction. -/
theorem rounds_head (self : Spi) (r : List Event) (h : Rounds self r) :
    r = [] ∨ ∃ m rest, r = m :: rest ∧ m.isTransaction = true := by
  cases h with
  | done => left; rfl
  | stuck m w hm _ => right; exact ⟨m, _, rfl, hm⟩
  | round m w rest hm _ _ => right; exact ⟨m, _, rfl, hm⟩

/-- The events of `send_loop` are rounds of transaction, strobe pulse, delay and wait. -/
theorem send_loop_rounds (self : Spi) (bus : Bus) (fuel : Nat) (hpin : self.m_rdy_pin < 32)
    (length : Nat) (data : spi_ioc_transfer) (k j : Nat) (ret : Int) :
    Rounds self (send_loop self bus fuel length data k j ret).1 := by
  induction length generalizing data k j ret with
  | zero => exact Rounds.done
  | succ n ih =>
    simp only [send_loop]
    rcases poll_wait self bus hpin fuel k with ⟨h1, h2⟩ | ⟨⟨k1, h1⟩, h2⟩
    · simp only [h1]
      have := Rounds.stuck (Event.ioctlMessage self.m_fd data (bus.message j)) _ rfl h2
      simpa [gap, List.append_assoc] using this
    · simp only [h1]
      have := Rounds.round (Event.ioctlMessage self.m_fd data (bus.message j)) _ _
        rfl h2 (ih { data with tx_buf := (data.tx_buf + 1) % 2 ^ 64 } k1 (j + 1) (bus.message j))
      simpa [gap, List.append_assoc] using this

/-- A list whose suffix ends at a ready sample ends at a ready sample. -/
theorem endsReady_of_suffix (self : Spi) (p q : List Event) (h : EndsReady self q) :
    EndsReady self (p ++ q) := by
  obtain ⟨pre, v, rfl, hv⟩ := h
  exact ⟨p ++ pre, v, by simp, hv⟩

/-- A finished wait ends at a ready sample. -/
theorem readyWait_endsReady (self : Spi) (w : List Event) (h : ReadyWait self w) :
    EndsReady self w := by
  obtain ⟨vs, v, rfl, -, hv⟩ := h
  exact ⟨_, v, rfl, hv⟩

/-- Strobe pulse, delay and wait hold no transaction. -/
theorem gap_noTransaction (self : Spi) (w : List Event) (h : NoTransaction w) :
    NoTransaction (gap self w) :=
  noTransaction_append _ _ (strobe_delay_noTransaction self) h

/-- Strobe pulse, delay and a finished wait end at a ready sample. -/
theorem gap_endsReady (self : Spi) (w : List Event) (h : ReadyWait self w) :
    EndsReady self (gap self w) :=
  endsReady_of_suffix self _ w (readyWait_endsReady self w h)

/-- In the events of the byte loop, put after events that end at a ready sample, every
    transaction comes directly after a ready sample. -/
theorem rounds_preceded (self : Spi) (r : List Event) (hr : Rounds self r) :
    ∀ pre0, NoTransaction pre0 → EndsReady self pre0 →
    ∀ pre m post, pre0 ++ r = pre ++ m :: post → m.isTransaction = true →
      EndsReady self pre := by
  induction hr with
  | done =>
    intro pre0 h0 _ pre m post h hm
    exact (noTransaction_split pre0 pre post m h0 (by simpa using h) hm).elim
  | stuck m1 w hm1 hw =>
    intro pre0 h0 he pre m post h hm
    have hg := gap_noTransaction self w (busyWait_noTransaction self w hw)
    rcases first_transaction pre with hp | ⟨p, x, q, hpq, hp, hx⟩
    · obtain ⟨e1, -, -⟩ := split_unique _ _ _ _ _ _ h0 hp hm1 hm h
      rw [← e1]; exact he
    · have h2 : pre0 ++ m1 :: gap self w = p ++ x :: (q ++ m :: post) :=
        h.trans (by rw [hpq]; simp)
      obtain ⟨-, -, e3⟩ := split_unique _ _ _ _ _ _ h0 hp hm1 hx h2
      exact (noTransaction_split _ q post m hg e3 hm).elim
  | round m1 w rest hm1 hw _ ih =>
    intro pre0 h0 he pre m post h hm
    have hg := gap_noTransaction self w (readyWait_noTransaction self w hw)
    rcases first_transaction pre with hp | ⟨p, x, q, hpq, hp, hx⟩
    · obtain ⟨e1, -, -⟩ := split_unique _ _ _ _ _ _ h0 hp hm1 hm h
      rw [← e1]; exact he
    · have h2 : pre0 ++ m1 :: (gap self w ++ rest) = p ++ x :: (q ++ m :: post) :=
        h.trans (by rw [hpq]; simp)
      obtain ⟨-, -, e3⟩ := split_unique _ _ _ _ _ _ h0 hp hm1 hx h2
      rw [hpq]
      apply endsReady_of_suffix self p (x :: q)
      exact endsReady_of_suffix self [x] q
        (ih _ hg (gap_endsReady self w hw) q m post e3 hm)

/-- In the events of the byte loop, what lies between two consecutive transactions is a
    handshake. -/
theorem rounds_between (self : Spi) (r : List Event) (hr : Rounds self r) :
    ∀ pre0, NoTransaction pre0 →
    ∀ pre m1 mid m2 post, pre0 ++ r = pre ++ m1 :: (mid ++ m2 :: post) →
      m1.isTransaction = true → m2.isTransaction = true → NoTransaction mid →
      Handshake self mid := by
  induction hr with
  | done =>
    intro pre0 h0 pre m1 mid m2 post h hm1 _ _
    exact (noTransaction_split pre0 pre _ m1 h0 (by simpa using h) hm1).elim
  | stuck m w hm hw =>
    intro pre0 h0 pre m1 mid m2 post h hm1 hm2 hmid
    have hg := gap_noTransaction self w (busyWait_noTransaction self w hw)
    rcases first_transaction pre with hp | ⟨p, x, q, hpq, hp, hx⟩
    · obtain ⟨-, -, e3⟩ := split_unique _ _ _ _ _ _ h0 hp hm hm1 h
      exact (noTransaction_split _ mid post m2 hg e3 hm2).elim
    · have h2 : pre0 ++ m :: gap self w = p ++ x :: (q ++ m1 :: (mid ++ m2 :: post)) :=
        h.trans (by rw [hpq]; simp)
      obtain ⟨-, -, e3⟩ := split_unique _ _ _ _ _ _ h0 hp hm hx h2
      exact (noTransaction_split _ q _ m1 hg e3 hm1).elim
  | round m w rest hm hw hrest ih =>
    intro pre0 h0 pre m1 mid m2 post h hm1 hm2 hmid
    have hg := gap_noTransaction self w (readyWait_noTransaction self w hw)
    rcases first_transaction pre with hp | ⟨p, x, q, hpq, hp, hx⟩
    · obtain ⟨-, -, e3⟩ := split_unique _ _ _ _ _ _ h0 hp hm hm1 h
      rcases rounds_head self rest hrest with hnil | ⟨m3, rest1, hcons, hm3⟩
      · rw [hnil, List.append_nil] at e3
        exact (noTransaction_split _ mid post m2 hg e3 hm2).elim
      · rw [hcons] at e3
        obtain ⟨e4, -, -⟩ := split_unique _ _ _ _ _ _ hg hmid hm3 hm2 e3
        rw [← e4]
        exact ⟨w, hw, rfl⟩
    · have h2 : pre0 ++ m :: (gap self w ++ rest)
          = p ++ x :: (q ++ m1 :: (mid ++ m2 :: post)) :=
        h.trans (by rw [hpq]; simp)
      obtain ⟨-, -, e3⟩ := split_unique _ _ _ _ _ _ h0 hp hm hx h2
      exact ih _ hg q m1 mid m2 post e3 hm1 hm2 hmid

/-- The trace of `full_duplex_transfer`: the strobe set, the first wait, then the events
    of the byte loop if that wait ended. -/
theorem full_duplex_transfer_trace (bus : Bus) (fuel : Nat) (self : Spi)
    (write read length speed delay bits : Nat) (hpin : self.m_rdy_pin < 32) :
    ∃ w0 r, (full_duplex_transfer bus fuel self write read length speed delay bits).trace
        = Event.store GPIO_SET (bit32 self.m_wr_pin) :: (w0 ++ r) ∧
      ((BusyWait self w0 ∧ r = []) ∨ (ReadyWait self w0 ∧ Rounds self r)) := by
  unfold full_duplex_transfer
  rcases poll_wait self bus hpin fuel 0 with ⟨h1, h2⟩ | ⟨⟨k1, h1⟩, h2⟩
  · exact ⟨_, [], by simp [h1], Or.inl ⟨h2, rfl⟩⟩
  · have hr := send_loop_rounds self bus fuel hpin length
      { tx_buf := write % 2 ^ 64, rx_buf := read % 2 ^ 64, len := 1, speed_hz := speed,
        delay_usecs := delay, bits_per_word := bits, cs_change := 0, tx_nbits := 0,
        rx_nbits := 0, pad := 0 } k1 0 0
    refine ⟨_, _, ?_, Or.inr ⟨h2, hr⟩⟩
    simp only [h1]
    split
    · rfl
    · split <;> rfl

/-- A trace without a transaction is ordered. -/
theorem ordered_of_noTransaction (self : Spi) (t : List Event) (h : NoTransaction t) :
    Ordered self t := by
  refine ⟨?_, ?_, ?_⟩
  · intro pre m post ht hm
    exact (noTransaction_split t pre post m h ht hm).elim
  · intro pre m1 mid m2 post ht hm1 _ _
    exact (noTransaction_split t pre _ m1 h ht hm1).elim
  · intro pre v mid m post ht _ hm
    exact (noTransaction_split t (pre ++ Event.load GPIO_LEV v :: mid) post m h
      (by rw [ht]; simp) hm).elim

/-- If every transaction comes directly after a ready sample, a transaction after a
    sample that is not ready has a ready sample in between. -/
theorem ready_between (self : Spi) (t : List Event)
    (h2 : ∀ pre m post, t = pre ++ m :: post → m.isTransaction = true → EndsReady self pre) :
    ∀ pre v mid m post, t = pre ++ Event.load GPIO_LEV v :: (mid ++ m :: post) →
      readyLevel self v = false → m.isTransaction = true →
      ∃ v1, Event.load GPIO_LEV v1 ∈ mid ∧ readyLevel self v1 = true := by
  intro pre v mid m post ht hv hm
  obtain ⟨pre1, v1, e, hv1⟩ := h2 (pre ++ Event.load GPIO_LEV v :: mid) m post
    (by rw [ht]; simp) hm
  rcases List.eq_nil_or_concat mid with hnil | ⟨mid1, a, hmid⟩
  · rw [hnil] at e
    have e2 : pre ++ [Event.load GPIO_LEV v] = pre1 ++ [Event.load GPIO_LEV v1] := e
    have := (List.append_inj' e2 rfl).2
    simp only [List.cons.injEq, Event.load.injEq, and_true, true_and] at this
    rw [this, hv1] at hv
    exact absurd hv (by simp)
  · rw [hmid] at e
    have e2 : (pre ++ Event.load GPIO_LEV v :: mid1) ++ [a]
        = pre1 ++ [Event.load GPIO_LEV v1] := by
      rw [← e]; simp
    have := (List.append_inj' e2 rfl).2
    simp only [List.cons.injEq, and_true] at this
    refine ⟨v1, ?_, hv1⟩
    rw [hmid, ← this]
    simp

/-- The trace of `full_duplex_transfer` starts with the strobe set and is ordered. -/
theorem full_duplex_transfer_ordered (bus : Bus) (fuel : Nat) (self : Spi)
    (write read length speed delay bits : Nat) (hpin : self.m_rdy_pin < 32) :
    (full_duplex_transfer bus fuel self write read length speed delay bits).trace.head?
      = some (Event.store GPIO_SET (bit32 self.m_wr_pin)) ∧
    Ordered self (full_duplex_transfer bus fuel self write read length speed delay bits).trace := by
  obtain ⟨w0, r, ht, hcase⟩ :=
    full_duplex_transfer_trace bus fuel self write read length speed delay bits hpin
  rw [ht]
  refine ⟨rfl, ?_⟩
  have hstore : NoTransaction [Event.store GPIO_SET (bit32 self.m_wr_pin)] := by
    intro e he
    rw [List.mem_singleton.mp he]
    rfl
  rcases hcase with ⟨hw, hr⟩ | ⟨hw, hr⟩
  · apply ordered_of_noTransaction
    rw [hr, List.append_nil]
    exact noTransaction_append _ _ hstore (busyWait_noTransaction self w0 hw)
  · have h0 : NoTransaction (Event.store GPIO_SET (bit32 self.m_wr_pin) :: w0) :=
      noTransaction_append _ _ hstore (readyWait_noTransaction self w0 hw)
    have he : EndsReady self (Event.store GPIO_SET (bit32 self.m_wr_pin) :: w0) :=
      endsReady_of_suffix self [_] w0 (readyWait_endsReady self w0 hw)
    have h2 : ∀ pre m post,
        Event.store GPIO_SET (bit32 self.m_wr_pin) :: (w0 ++ r) = pre ++ m :: post →
        m.isTransaction = true → EndsReady self pre :=
      fun pre m post h hm => rounds_preceded self r hr _ h0 he pre m post h hm
    exact ⟨h2,
      fun pre m1 mid m2 post h hm1 hm2 hmid =>
        rounds_between self r hr _ h0 pre m1 mid m2 post h hm1 hm2 hmid,
      ready_between self _ h2⟩

/-- A call of `Transfer` either stops before any event or is a call of
    `full_duplex_transfer`. -/
theorem Transfer_trace_cases (w : Nat) (bus : Bus) (fuel : Nat) (self : Spi)
    (args : List JSValue) :
    (Transfer w bus fuel self args).trace = [] ∨
    ∃ write read length speed delay bits, Transfer w bus fuel self args
      = full_duplex_transfer bus fuel self write read length speed delay bits := by
  unfold Transfer
  split
  · left; rfl
  · split
    · left; rfl
    · simp only []
      split
      · left; rfl
      · split
        · left; rfl
        · right; exact ⟨_, _, _, _, _, _, rfl⟩

/-- C11: on an open handle whose ready pin is one of the 32 pins of the level register,
    in the trace of every `transfer` call, whatever the bus answers and whether or not
    the call ends: the trace is empty (the call was rejected) or starts with the write of
    `1 << m_wr_pin` to `GPIO_SET`, and it does start so when the arguments pass
    validation; every transaction comes directly after a sample of the ready pin at the
    ready polarity (low when `m_invert_rdy` is set, high otherwise); between two
    consecutive transactions lie exactly the strobe clear-then-set (when `m_wr_pin` is
    non-zero), the delay of 10 microseconds (`m_invert_rdy` set) or 1 microsecond, and
    samples of the ready pin ending at the first ready one; and a transaction after a
    sample that is not ready has a ready sample in between. -/
theorem Transfer_trace_ordering (w : Nat) (bus : Bus) (fuel : Nat) (self : Spi)
    (args : List JSValue) (hopen : self.m_fd ≠ -1) (hpin : self.m_rdy_pin < 32) :
    ((Transfer w bus fuel self args).trace = [] ∨
      (Transfer w bus fuel self args).trace.head?
        = some (Event.store GPIO_SET (bit32 self.m_wr_pin))) ∧
    (∀ a0 a1 rest, args = a0 :: a1 :: rest → ¬ (a0 = .null ∧ a1 = .null) →
      ¬ (buffer_length w a0 > 0 ∧ buffer_length w a1 > 0 ∧
        buffer_length w a0 ≠ buffer_length w a1) →
      (Transfer w bus fuel self args).trace.head?
        = some (Event.store GPIO_SET (bit32 self.m_wr_pin))) ∧
    (∀ pre m post, (Transfer w bus fuel self args).trace = pre ++ m :: post →
      m.isTransaction = true →
      ∃ pre1 v, pre = pre1 ++ [Event.load GPIO_LEV v] ∧ readyLevel self v = true) ∧
    (∀ pre m1 mid m2 post,
      (Transfer w bus fuel self args).trace = pre ++ m1 :: (mid ++ m2 :: post) →
      m1.isTransaction = true → m2.isTransaction = true →
      (∀ e ∈ mid, e.isTransaction = false) → Handshake self mid) ∧
    (∀ pre v mid m post,
      (Transfer w bus fuel self args).trace
        = pre ++ Event.load GPIO_LEV v :: (mid ++ m :: post) →
      readyLevel self v = false → m.isTransaction = true →
      ∃ v1, Event.load GPIO_LEV v1 ∈ mid ∧ readyLevel self v1 = true) := by
  have hord : Ordered self (Transfer w bus fuel self args).trace ∧
      ((Transfer w bus fuel self args).trace = [] ∨
        (Transfer w bus fuel self args).trace.head?
          = some (Event.store GPIO_SET (bit32 self.m_wr_pin))) := by
    rcases Transfer_trace_cases w bus fuel self args with h | ⟨a, b, c, d, e, f, h⟩
    · rw [h]
      exact ⟨ordered_of_noTransaction self [] (fun e he => by cases he), Or.inl rfl⟩
    · rw [h]
      have := full_duplex_transfer_ordered bus fuel self a b c d e f hpin
      exact ⟨this.2, Or.inr this.1⟩
  obtain ⟨⟨h2, h3, h4⟩, h1⟩ := hord
  refine ⟨h1, ?_, h2, h3, h4⟩
  intro a0 a1 rest hargs hnull hvalid
  rw [hargs, Transfer_validated w fuel self a0 a1 rest hopen hnull hvalid bus]
  exact (full_duplex_transfer_ordered bus fuel self _ _ _ _ _ _ hpin).1

/-- C11, at `transfer(write, read)` with two buffers of length 2 on `slowBus`, where every
    wait sees one sample that is not ready before the ready one: the trace starts with
    the strobe set, and between the two transactions lie strobe clear, strobe set, the
    delay of 1 microsecond, a low sample and a high sample. -/
theorem Transfer_trace_ordering_witness :
    openHandle.m_fd ≠ -1 ∧ openHandle.m_rdy_pin < 32 ∧
    (Transfer 64 slowBus 8 openHandle [.buffer 4096 2, .buffer 8192 2]).trace.head?
      = some (Event.store GPIO_SET (bit32 17)) ∧
    Handshake openHandle
      [Event.store GPIO_CLR (bit32 17), Event.store GPIO_SET (bit32 17),
       Event.delayMicrosecondsHard 1, Event.load GPIO_LEV 0, Event.load GPIO_LEV (bit32 27)] :=
  ⟨by decide, by decide,
   (Transfer_trace_ordering 64 slowBus 8 openHandle [.buffer 4096 2, .buffer 8192 2]
      (by decide) (by decide)).2.1 (.buffer 4096 2) (.buffer 8192 2) [] rfl (by decide)
      (by decide),
   (Transfer_trace_ordering 64 slowBus 8 openHandle [.buffer 4096 2, .buffer 8192 2]
      (by decide) (by decide)).2.2.2.1
      [Event.store GPIO_SET (bit32 17), Event.load GPIO_LEV 0, Event.load GPIO_LEV (bit32 27)]
      (Event.ioctlMessage 3
        { tx_buf := 4096, rx_buf := 8192, len := 1, speed_hz := 1000000, delay_usecs := 0,
          bits_per_word := 8, cs_change := 0, tx_nbits := 0, rx_nbits := 0, pad := 0 } 1)
      [Event.store GPIO_CLR (bit32 17), Event.store GPIO_SET (bit32 17),
       Event.delayMicrosecondsHard 1, Event.load GPIO_LEV 0, Event.load GPIO_LEV (bit32 27)]
      (Event.ioctlMessage 3
        { tx_buf := 4097, rx_buf := 8192, len := 1, speed_hz := 1000000, delay_usecs := 0,
          bits_per_word := 8, cs_change := 0, tx_nbits := 0, rx_nbits := 0, pad := 0 } 2)
      [Event.store GPIO_CLR (bit32 17), Event.store GPIO_SET (bit32 17),
       Event.delayMicrosecondsHard 1, Event.load GPIO_LEV 0, Event.load GPIO_LEV (bit32 27)]
      (by decide) rfl rfl (by decide)⟩

/-! ## The pin set-up of `Open` -/

/-- The bits of a 3-bit field. -/
theorem field_testBit (x s i : Nat) :
    (field x s).testBit i = (x.testBit (s + i) && decide (i < 3)) := by
  have h7 : (7 : Nat) = 2 ^ 3 - 1 := rfl
  unfold field
  rw [h7, Nat.testBit_and, Nat.testBit_shiftRight, Nat.testBit_two_pow_sub_one]

/-- The bits of a word after `&= ~(7 << s)`. -/
theorem clear_testBit (x s j : Nat) :
    (x &&& not32 (7 <<< s)).testBit j
      = (x.testBit j && (decide (j < 32) ^^ (decide (s ≤ j) && decide (j - s < 3)))) := by
  have h7 : (7 : Nat) = 2 ^ 3 - 1 := rfl
  unfold not32
  rw [h7, Nat.testBit_and, Nat.testBit_xor, Nat.testBit_two_pow_sub_one, Nat.testBit_shiftLeft,
    Nat.testBit_two_pow_sub_one]

/-- The bits of a word after `|= (1 << s)`. -/
theorem set_testBit (x s j : Nat) :
    (x ||| (1 <<< s)).testBit j = (x.testBit j || decide (s = j)) := by
  rw [Nat.testBit_or, Nat.one_shiftLeft, Nat.testBit_two_pow]

/-- Clearing a field inside the word leaves it 0. -/
theorem field_clear_self (x s : Nat) (hs : s + 3 ≤ 32) :
    field (x &&& not32 (7 <<< s)) s = 0 := by
  apply Nat.eq_of_testBit_eq
  intro i
  rw [field_testBit, clear_testBit, Nat.zero_testBit]
  by_cases hi : i < 3
  · have h1 : s + i < 32 := by omega
    have h2 : s ≤ s + i := by omega
    have h3 : s + i - s < 3 := by omega
    simp [hi, h1, h2, h3]
  · simp [hi]

/-- Clearing a field leaves a disjoint field of the word as it was. -/
theorem field_clear_other (x s t : Nat) (ht : t + 3 ≤ 32) (hd : t + 3 ≤ s ∨ s + 3 ≤ t) :
    field (x &&& not32 (7 <<< s)) t = field x t := by
  apply Nat.eq_of_testBit_eq
  intro i
  rw [field_testBit, field_testBit, clear_testBit]
  by_cases hi : i < 3
  · have h1 : t + i < 32 := by omega
    have h2 : ¬ (s ≤ t + i ∧ t + i - s < 3) := by omega
    by_cases h3 : s ≤ t + i
    · have h4 : ¬ (t + i - s < 3) := fun h => h2 ⟨h3, h⟩
      simp [hi, h1, h3, h4]
    · simp [hi, h1, h3]
  · simp [hi]

/-- Setting the lowest bit of a cleared field makes it 1. -/
theorem field_set_self (x s : Nat) (h0 : field x s = 0) : field (x ||| (1 <<< s)) s = 1 := by
  apply Nat.eq_of_testBit_eq
  intro i
  have hx := congrArg (fun y => Nat.testBit y i) h0
  simp only [field_testBit, Nat.zero_testBit] at hx
  have h1 : (1 : Nat) = 2 ^ 0 := rfl
  rw [field_testBit, set_testBit]
  conv => rhs; rw [h1, Nat.testBit_two_pow]
  by_cases hi : i < 3
  · simp only [hi, decide_True, Bool.and_true] at hx ⊢
    rw [hx]
    by_cases h : i = 0
    · subst h; simp
    · have : ¬ (s = s + i) := by omega
      have h' : ¬ (0 = i) := fun e => h e.symm
      simp [this, h']
  · have : ¬ (0 = i) := by omega
    simp [hi, this]

/-- Setting the lowest bit of a field leaves a disjoint field as it was. -/
theorem field_set_other (x s t : Nat) (hd : t + 3 ≤ s ∨ s + 3 ≤ t) :
    field (x ||| (1 <<< s)) t = field x t := by
  apply Nat.eq_of_testBit_eq
  intro i
  rw [field_testBit, field_testBit, set_testBit]
  by_cases hi : i < 3
  · have : ¬ (s = t + i) := by omega
    simp [hi, this]
  · simp [hi]

/-- The function-select field of a pin is a 3-bit field of its word. -/
theorem fsel_eq_field (gpio : Gpio) (pin : Nat) :
    fsel gpio pin = field (gpio (pin / 10)) ((pin % 10) * 3) := rfl

/-- The words of the GPIO block after the pin set-up, other than the two pull registers. -/
theorem setup_pins_word (self : Spi) (gpio : Gpio) (i : Nat)
    (h37 : i ≠ GPIO_PULL) (h38 : i ≠ GPIO_PULLCLK0) :
    (setup_pins self gpio).1 i =
      if i = self.m_rdy_pin / 10 then
        (if self.m_rdy_pin / 10 = self.m_wr_pin / 10 then
          (gpio (self.m_wr_pin / 10) &&& not32 (7 <<< ((self.m_wr_pin % 10) * 3)))
            ||| (1 <<< ((self.m_wr_pin % 10) * 3))
         else gpio (self.m_rdy_pin / 10)) &&& not32 (7 <<< ((self.m_rdy_pin % 10) * 3))
      else if i = self.m_wr_pin / 10 then
        (gpio (self.m_wr_pin / 10) &&& not32 (7 <<< ((self.m_wr_pin % 10) * 3)))
          ||| (1 <<< ((self.m_wr_pin % 10) * 3))
      else gpio i := by
  simp only [setup_pins, INP_GPIO, OUT_GPIO, Gpio.write, h37, h38, if_false, if_true]
  split_ifs <;> rfl

/-- The function-select fields after the pin set-up, for distinct pins below 32. -/
theorem setup_pins_fsel (self : Spi) (gpio : Gpio)
    (hwr : self.m_wr_pin < 32) (hrdy : self.m_rdy_pin < 32)
    (hne : self.m_wr_pin ≠ self.m_rdy_pin) :
    fsel (setup_pins self gpio).1 self.m_wr_pin = 1 ∧
    fsel (setup_pins self gpio).1 self.m_rdy_pin = 0 ∧
    (∀ p, p ≠ self.m_wr_pin → p ≠ self.m_rdy_pin →
      p / 10 ≠ GPIO_PULL → p / 10 ≠ GPIO_PULLCLK0 →
      fsel (setup_pins self gpio).1 p = fsel gpio p) := by
  have hW37 : self.m_wr_pin / 10 ≠ GPIO_PULL := by unfold GPIO_PULL; omega
  have hW38 : self.m_wr_pin / 10 ≠ GPIO_PULLCLK0 := by unfold GPIO_PULLCLK0; omega
  have hR37 : self.m_rdy_pin / 10 ≠ GPIO_PULL := by unfold GPIO_PULL; omega
  have hR38 : self.m_rdy_pin / 10 ≠ GPIO_PULLCLK0 := by unfold GPIO_PULLCLK0; omega
  have hsw : (self.m_wr_pin % 10) * 3 + 3 ≤ 32 := by omega
  have hsr : (self.m_rdy_pin % 10) * 3 + 3 ≤ 32 := by omega
  refine ⟨?_, ?_, ?_⟩
  · rw [fsel_eq_field, setup_pins_word self gpio _ hW37 hW38]
    by_cases hWR : self.m_wr_pin / 10 = self.m_rdy_pin / 10
    · have hd : (self.m_wr_pin % 10) * 3 + 3 ≤ (self.m_rdy_pin % 10) * 3 ∨
          (self.m_rdy_pin % 10) * 3 + 3 ≤ (self.m_wr_pin % 10) * 3 := by omega
      simp only [hWR, if_true]
      rw [field_clear_other _ _ _ hsw hd, ← hWR]
      exact field_set_self _ _ (field_clear_self _ _ hsw)
    · simp only [hWR, if_false, if_true]
      exact field_set_self _ _ (field_clear_self _ _ hsw)
  · rw [fsel_eq_field, setup_pins_word self gpio _ hR37 hR38]
    simp only [if_true]
    exact field_clear_self _ _ hsr
  · intro p hpw hpr h37 h38
    have hsp : (p % 10) * 3 + 3 ≤ 32 := by omega
    rw [fsel_eq_field, fsel_eq_field, setup_pins_word self gpio _ h37 h38]
    by_cases hPR : p / 10 = self.m_rdy_pin / 10
    · have hd : (p % 10) * 3 + 3 ≤ (self.m_rdy_pin % 10) * 3 ∨
          (self.m_rdy_pin % 10) * 3 + 3 ≤ (p % 10) * 3 := by omega
      simp only [hPR, if_true]
      rw [field_clear_other _ _ _ hsp hd]
      by_cases hRW : self.m_rdy_pin / 10 = self.m_wr_pin / 10
      · have hd2 : (p % 10) * 3 + 3 ≤ (self.m_wr_pin % 10) * 3 ∨
            (self.m_wr_pin % 10) * 3 + 3 ≤ (p % 10) * 3 := by omega
        simp only [hRW, if_true]
        rw [field_set_other _ _ _ hd2, field_clear_other _ _ _ hsp hd2]
      · simp only [hRW, if_false]
    · simp only [hPR, if_false]
      by_cases hPW : p / 10 = self.m_wr_pin / 10
      · have hd2 : (p % 10) * 3 + 3 ≤ (self.m_wr_pin % 10) * 3 ∨
            (self.m_wr_pin % 10) * 3 + 3 ≤ (p % 10) * 3 := by omega
        simp only [hPW, if_true]
        rw [field_set_other _ _ _ hd2, field_clear_other _ _ _ hsp hd2]
      · simp only [hPW, if_false]

/-- A successful `Open` ends with the pin set-up: before it the trace holds no register
    access, and the GPIO block afterwards is the one the set-up leaves. -/
theorem Open_success (k : Kernel) (gpio : Gpio) (self : Spi) (args : List JSValue)
    (hsucc : (Open k gpio self args).1.completion = .returned .this) :
    ∃ pre fd, (∀ e ∈ pre, ∀ word v, e ≠ Event.store word v) ∧
      (Open k gpio self args).1.trace
        = pre ++ (setup_pins { self with m_fd := fd } gpio).2 ∧
      (Open k gpio self args).2 = (setup_pins { self with m_fd := fd } gpio).1 := by
  by_cases h1 : require_arguments args 1 = true
  swap
  · simp [Open, h1] at hsucc
  by_cases h2 : self.m_fd = -1
  swap
  · simp [Open, h1, h2] at hsucc
  by_cases h3 : fdOf k.device < 0
  · simp [Open, h1, h2, h3] at hsucc
  by_cases h4 : k.wr_mode = -1
  · simp [Open, h1, h2, h3, h4] at hsucc
  by_cases h5 : k.wr_bits_per_word = -1
  · simp [Open, h1, h2, h3, h4, h5] at hsucc
  by_cases h6 : k.wr_max_speed_hz = -1
  · simp [Open, h1, h2, h3, h4, h5, h6] at hsucc
  by_cases h7 : fdOf k.mem < 0
  · simp [Open, h1, h2, h3, h4, h5, h6, h7] at hsucc
  by_cases h8 : k.mmap_ok = true
  swap
  · simp [Open, h1, h2, h3, h4, h5, h6, h7, h8] at hsucc
  refine ⟨[Event.openDevice (args.getD 0 .undefined) (fdOf k.device),
      Event.ioctlSet (fdOf k.device) .SPI_IOC_WR_MODE self.m_mode k.wr_mode,
      Event.ioctlSet (fdOf k.device) .SPI_IOC_WR_BITS_PER_WORD self.m_bits_per_word
        k.wr_bits_per_word,
      Event.ioctlSet (fdOf k.device) .SPI_IOC_WR_MAX_SPEED_HZ self.m_max_speed
        k.wr_max_speed_hz,
      Event.openMem (fdOf k.mem), Event.mmap (fdOf k.mem) k.mmap_ok,
      Event.close (fdOf k.mem), Event.printf self.m_rdy_pin], fdOf k.device, ?_, ?_, ?_⟩
  · intro e he word v
    simp only [List.mem_cons, List.mem_singleton, List.not_mem_nil, or_false] at he
    rcases he with rfl | rfl | rfl | rfl | rfl | rfl | rfl | rfl <;> simp
  · simp [Open, h1, h2, h3, h4, h5, h6, h7, h8]
  · simp [Open, h1, h2, h3, h4, h5, h6, h7, h8]

/-- The events of the pin set-up: accesses to the function-select words of the two pins,
    then the pull-down sequence. -/
theorem setup_pins_trace (self : Spi) (gpio : Gpio)
    (hwr : self.m_wr_pin < 32) (hrdy : self.m_rdy_pin < 32) :
    ∃ pre, (setup_pins self gpio).2 = pre ++
        [Event.store GPIO_PULL 1, Event.delayMicrosecondsHard 5,
         Event.store GPIO_PULLCLK0 (1 <<< self.m_rdy_pin), Event.delayMicrosecondsHard 5,
         Event.store GPIO_PULL 0, Event.store GPIO_PULLCLK0 0] ∧
      ∀ e ∈ pre, ∀ v, e ≠ Event.store GPIO_PULL v ∧ e ≠ Event.store GPIO_PULLCLK0 v := by
  have hW37 : self.m_wr_pin / 10 ≠ GPIO_PULL := by unfold GPIO_PULL; omega
  have hW38 : self.m_wr_pin / 10 ≠ GPIO_PULLCLK0 := by unfold GPIO_PULLCLK0; omega
  have hR37 : self.m_rdy_pin / 10 ≠ GPIO_PULL := by unfold GPIO_PULL; omega
  have hR38 : self.m_rdy_pin / 10 ≠ GPIO_PULLCLK0 := by unfold GPIO_PULLCLK0; omega
  have hbit : bit32 self.m_rdy_pin = 1 <<< self.m_rdy_pin := by
    rw [bit32_of_lt _ hrdy, Nat.one_shiftLeft]
  refine ⟨( INP_GPIO gpio self.m_wr_pin).2 ++ ( OUT_GPIO ( INP_GPIO gpio self.m_wr_pin).1
      self.m_wr_pin).2 ++ ( INP_GPIO ( OUT_GPIO ( INP_GPIO gpio self.m_wr_pin).1
      self.m_wr_pin).1 self.m_rdy_pin).2, ?_, ?_⟩
  · simp only [setup_pins, hbit]
  · intro e he v
    simp only [ INP_GPIO, OUT_GPIO, List.mem_append, List.mem_cons, List.mem_singleton,
      List.not_mem_nil, or_false] at he
    rcases he with ((rfl | rfl) | (rfl | rfl)) | (rfl | rfl) <;>
      simp [hW37, hW38, hR37, hR38]

/-- C12: for a write pin and a ready pin that are distinct and below 32, and any initial
    contents of the GPIO block, after a successful `open` the function-select field of
    the write pin (word `pin / 10`, bits `3 * (pin mod 10)` to `+2`) is 001 (output), that
    of the ready pin is 000 (input), and that of every other pin is as before (for every
    pin index whose word `pin / 10` is not one of the two pull registers, so for every
    index below 370); the trace ends with the write of 1 to `GPIO_PULL`, a delay of 5
    microseconds, the write of the single bit `1 << readyPin` to `GPIO_PULLCLK0`, a delay
    of 5 microseconds, and the writes of 0 to `GPIO_PULL` and `GPIO_PULLCLK0`, with no
    other write to these two registers; and both hold 0 at the end. -/
theorem Open_pin_setup (k : Kernel) (gpio : Gpio) (self : Spi) (args : List JSValue)
    (hsucc : (Open k gpio self args).1.completion = .returned .this)
    (hwr : self.m_wr_pin < 32) (hrdy : self.m_rdy_pin < 32)
    (hne : self.m_wr_pin ≠ self.m_rdy_pin) :
    fsel (Open k gpio self args).2 self.m_wr_pin = 1 ∧
    fsel (Open k gpio self args).2 self.m_rdy_pin = 0 ∧
    (∀ p, p ≠ self.m_wr_pin → p ≠ self.m_rdy_pin →
      p / 10 ≠ GPIO_PULL → p / 10 ≠ GPIO_PULLCLK0 →
      fsel (Open k gpio self args).2 p = fsel gpio p) ∧
    (∃ pre, (Open k gpio self args).1.trace = pre ++
        [Event.store GPIO_PULL 1, Event.delayMicrosecondsHard 5,
         Event.store GPIO_PULLCLK0 (1 <<< self.m_rdy_pin), Event.delayMicrosecondsHard 5,
         Event.store GPIO_PULL 0, Event.store GPIO_PULLCLK0 0] ∧
      ∀ e ∈ pre, ∀ v, e ≠ Event.store GPIO_PULL v ∧ e ≠ Event.store GPIO_PULLCLK0 v) ∧
    (Open k gpio self args).2 GPIO_PULL = 0 ∧
    (Open k gpio self args).2 GPIO_PULLCLK0 = 0 := by
  obtain ⟨pre0, fd, hpre0, htrace, hgpio⟩ := Open_success k gpio self args hsucc
  obtain ⟨f1, f2, f3⟩ := setup_pins_fsel { self with m_fd := fd } gpio hwr hrdy hne
  obtain ⟨pre1, ht1, hpre1⟩ := setup_pins_trace { self with m_fd := fd } gpio hwr hrdy
  rw [hgpio]
  refine ⟨f1, f2, f3, ⟨pre0 ++ pre1, ?_, ?_⟩, ?_, ?_⟩
  · rw [htrace, ht1, List.append_assoc]
  · intro e he v
    rcases List.mem_append.mp he with h | h
    · exact ⟨hpre0 e h _ v, hpre0 e h _ v⟩
    · exact hpre1 e h v
  · simp [setup_pins, Gpio.write, GPIO_PULL, GPIO_PULLCLK0]
  · simp [setup_pins, Gpio.write, GPIO_PULL, GPIO_PULLCLK0]

/-- C12, at write pin 17 and ready pin 27 on a GPIO block of all ones: word 1 ends with
    bits 21 to 23 equal to 001, word 2 with bits 21 to 23 equal to 000, and pin 18 keeps
    its field. -/
theorem Open_pin_setup_witness :
    (Open goodKernel onesGpio configuredHandle [.string "/dev/spidev0.0"]).1.completion
      = .returned .this ∧
    configuredHandle.m_wr_pin < 32 ∧ configuredHandle.m_rdy_pin < 32 ∧
    configuredHandle.m_wr_pin ≠ configuredHandle.m_rdy_pin ∧
    fsel (Open goodKernel onesGpio configuredHandle [.string "/dev/spidev0.0"]).2 17 = 1 ∧
    fsel (Open goodKernel onesGpio configuredHandle [.string "/dev/spidev0.0"]).2 27 = 0 ∧
    fsel (Open goodKernel onesGpio configuredHandle [.string "/dev/spidev0.0"]).2 18 = 7 ∧
    (Open goodKernel onesGpio configuredHandle [.string "/dev/spidev0.0"]).2 1 = 0xFF3FFFFF ∧
    (Open goodKernel onesGpio configuredHandle [.string "/dev/spidev0.0"]).2 2 = 0xFF1FFFFF :=
  have h := Open_pin_setup goodKernel onesGpio configuredHandle [.string "/dev/spidev0.0"]
    (by decide) (by decide) (by decide) (by decide)
  ⟨by decide, by decide, by decide, by decide, h.1, h.2.1,
   (h.2.2.1 18 (by decide) (by decide) (by decide) (by decide)).trans (by decide),
   by decide, by decide⟩

end Ntk3900Spi
